import Mathlib

/-!
Shallow embedding of the two-player tactical board-game server
(three near-duplicate variants in the repository):

* namespace `P0` — the 6×7 base variant (board: 7 rows × 6 columns),
* namespace `AE` — the "Ancient Empires" variant with nations (7×7 board),
* namespace `P1` — the configurable-board-size variant.

JavaScript objects become structures; the board (a 2D array of
piece-or-null) becomes a total function `Int → Int → Option Piece`
(JavaScript array reads out of range yield `undefined`, i.e. an empty
cell, and a negative column write stores a property, which the total
function models directly).  Numbers are `Int`, distances `Nat`.
Broadcast/emit calls carry no game state and are dropped.
-/

inductive PieceType where
  | general
  | cavalry
  | horseArcher
  | heavyInfantry
  | lightInfantry
  | archer
deriving DecidableEq

inductive Nation where
  | english
  | mongols
  | macedonians
  | spartans
deriving DecidableEq

inductive Phase where
  | waiting
  | nationSelection
  | placement
  | battle
deriving DecidableEq

inductive OptionKind where
  | lineOfSight
  | limitedRange
deriving DecidableEq

structure Piece where
  type : PieceType
  player : Nat
  health : Int
  maxHealth : Int
  hasBeenReplenished : Bool
  ammo : Option Int
  chargeDirection : Option (Int × Int)
  nation : Option Nation
  placedInTurn : Int
deriving DecidableEq

/-- A piece-count map (`undefined` key ↦ `none`, mirroring the JS object). -/
def Roster : Type := PieceType → Option Int

/-- The board: JS 2D array of nullable cells, as a total function. -/
def Board : Type := Int → Int → Option Piece

def setCell (b : Board) (r c : Int) (v : Option Piece) : Board :=
  fun r' c' => if r' = r ∧ c' = c then v else b r' c'

def setRoster (ro : Roster) (pt : PieceType) (v : Option Int) : Roster :=
  fun pt' => if pt' = pt then v else ro pt'

/-- `pieces[pieceType]--` (a decrement of an absent key stays absent / NaN). -/
def decRoster (ro : Roster) (pt : PieceType) : Roster :=
  setRoster ro pt ((ro pt).map (fun n => n - 1))

/-- Manhattan distance `Math.abs(a-c) + Math.abs(b-d)`. -/
def mdist (a b c d : Int) : Nat := (a - c).natAbs + (b - d).natAbs

/-- `piece.ammo > 0` (`undefined > 0` is false in JS). -/
def ammoPos : Option Int → Bool
  | some n => decide (0 < n)
  | none => false

structure GameState where
  currentPlayer : Nat
  gamePhase : Phase
  placementTurn : Int
  piecesPlacedThisTurn : Int
  hasMoved : Bool
  hasAttacked : Bool
  gameEnded : Bool
  winner : Option Nat
  board : Board
  player1Pieces : Roster
  player2Pieces : Roster
  lineOfSightEnabled : Bool
  limitedRangeEnabled : Bool
  selectedCell : Option (Int × Int)
  selectedPieceType : Option PieceType
  player1Nation : Option Nation
  player2Nation : Option Nation

/-- A room: seats map (socketId ↦ playerNumber), spectators, game state. -/
structure Room where
  players : List (Nat × Nat)
  spectators : List Nat
  gameState : GameState

namespace P0

def pieceHealth : PieceType → Int
  | .general => 3
  | .cavalry => 2
  | .horseArcher => 2
  | .heavyInfantry => 3
  | .lightInfantry => 2
  | .archer => 2

def mkPiece (pieceType : PieceType) (player : Nat) : Piece :=
  { type := pieceType
    player := player
    health := pieceHealth pieceType
    maxHealth := pieceHealth pieceType
    hasBeenReplenished := false
    ammo := if pieceType = .archer then some 3 else none
    chargeDirection := none
    nation := none
    placedInTurn := 0 }

def emptyBoard : Board := fun _ _ => none

def baseRoster : Roster := fun pt =>
  match pt with
  | .general => some 1
  | .cavalry => some 2
  | .heavyInfantry => some 2
  | .lightInfantry => some 2
  | .archer => some 1
  | .horseArcher => none

def initialGameState : GameState :=
  { currentPlayer := 1
    gamePhase := .waiting
    placementTurn := 1
    piecesPlacedThisTurn := 0
    hasMoved := false
    hasAttacked := false
    gameEnded := false
    winner := none
    board := emptyBoard
    player1Pieces := baseRoster
    player2Pieces := baseRoster
    lineOfSightEnabled := false
    limitedRangeEnabled := false
    selectedCell := none
    selectedPieceType := none
    player1Nation := none
    player2Nation := none }

def canMove (piece : Piece) (fromRow fromCol toRow toCol : Int) : Bool :=
  if piece.type = .cavalry then
    let rowDiff := (fromRow - toRow).natAbs
    let colDiff := (fromCol - toCol).natAbs
    decide ((rowDiff ≤ 2 ∧ colDiff = 0) ∨ (rowDiff = 0 ∧ colDiff ≤ 2))
  else
    decide (mdist fromRow fromCol toRow toCol = 1)

def hasLineOfSight (fromRow fromCol toRow toCol : Int) (board : Board) : Bool :=
  if fromRow = toRow then
    let startCol := min fromCol toCol
    let endCol := max fromCol toCol
    (List.range (endCol - startCol - 1).toNat).all
      (fun i => (board fromRow (startCol + 1 + i)).isNone)
  else if fromCol = toCol then
    let startRow := min fromRow toRow
    let endRow := max fromRow toRow
    (List.range (endRow - startRow - 1).toNat).all
      (fun i => (board (startRow + 1 + i) fromCol).isNone)
  else
    true

def canAttack (piece : Piece) (fromRow fromCol toRow toCol : Int)
    (s : GameState) : Bool :=
  match s.board toRow toCol with
  | none => false
  | some target =>
    if target.player = piece.player then false
    else if piece.type = .archer then
      let distance := mdist fromRow fromCol toRow toCol
      if distance = 1 then true
      else if ammoPos piece.ammo ∧ (fromRow = toRow ∨ fromCol = toCol) then
        if s.limitedRangeEnabled ∧ distance > 4 then false
        else if s.lineOfSightEnabled ∧
            hasLineOfSight fromRow fromCol toRow toCol s.board = false then false
        else true
      else false
    else
      decide (mdist fromRow fromCol toRow toCol = 1)

/-- `d !== 0 ? (d > 0 ? 1 : -1) : d`. -/
def normalizeDir (d : Int) : Int :=
  if d = 0 then 0 else if d > 0 then 1 else -1

def checkForHealing (piece : Piece) (row : Int) : Piece :=
  if ((piece.player = 1 ∧ row = 6) ∨ (piece.player = 2 ∧ row = 0)) ∧
      piece.hasBeenReplenished = false then
    let p1 := { piece with health := piece.maxHealth, hasBeenReplenished := true }
    if piece.type = .archer then { p1 with ammo := some 3 } else p1
  else piece

def movePiece (fromRow fromCol toRow toCol : Int) (s : GameState) : GameState :=
  match s.board fromRow fromCol with
  | none => s
  | some piece =>
    let piece1 :=
      if piece.type = .cavalry then
        if mdist fromRow fromCol toRow toCol = 2 then
          { piece with chargeDirection :=
              (some (normalizeDir (toRow - fromRow), normalizeDir (toCol - fromCol))) }
        else
          { piece with chargeDirection := none }
      else piece
    let piece2 := checkForHealing piece1 toRow
    { s with board := setCell (setCell s.board toRow toCol (some piece2)) fromRow fromCol none }

/-- The damage computed by `attackPiece` (1.1 charge-bonus block). -/
def chargeDamage (attacker target : Piece) (attackerRow attackerCol targetRow targetCol : Int) : Int :=
  match attacker.chargeDirection with
  | some (dr, dc) =>
    if attacker.type = .cavalry ∧ mdist attackerRow attackerCol targetRow targetCol = 1 ∧
        target.type ≠ .heavyInfantry ∧ targetRow - attackerRow = dr ∧ targetCol - attackerCol = dc then
      2
    else 1
  | none => 1

def attackPiece (attackerRow attackerCol targetRow targetCol : Int) (s : GameState) : GameState :=
  if s.gameEnded = true then s
  else
    match s.board attackerRow attackerCol, s.board targetRow targetCol with
    | some attacker, some target =>
      let distance := mdist attackerRow attackerCol targetRow targetCol
      let damage := chargeDamage attacker target attackerRow attackerCol targetRow targetCol
      let s1 :=
        if attacker.type = .archer ∧ distance > 1 then
          { s with board := (setCell s.board attackerRow attackerCol
              (some { attacker with ammo := attacker.ammo.map (fun n => n - 1) })) }
        else s
      let target1 := { target with health := target.health - damage }
      if target1.health ≤ 0 then
        let s2 := { s1 with board := setCell s1.board targetRow targetCol none }
        if target.type = .general then
          { s2 with gameEnded := true, winner := some attacker.player }
        else s2
      else
        { s1 with board := setCell s1.board targetRow targetCol (some target1) }
    | _, _ => s

def handlePlacePiece (player : Nat) (pieceType : PieceType) (row col : Int)
    (s : GameState) : GameState :=
  if ¬ (s.currentPlayer = player ∧ s.gamePhase = .placement) then s
  else if s.piecesPlacedThisTurn ≥ 4 then s
  else if (s.board row col).isSome then s
  else if ¬ (if player = 1 then row ≤ 2 else row ≥ 4) then s
  else if (if player = 1 then s.player1Pieces pieceType else s.player2Pieces pieceType) = some 0 then s
  else
    let pieceData := mkPiece pieceType player
    let s1 := { s with board := setCell s.board row col (some pieceData) }
    let s2 :=
      if player = 1 then { s1 with player1Pieces := decRoster s1.player1Pieces pieceType }
      else { s1 with player2Pieces := decRoster s1.player2Pieces pieceType }
    { s2 with piecesPlacedThisTurn := s2.piecesPlacedThisTurn + 1 }

def handleSelectCell (player : Nat) (row col : Int) (s : GameState) : GameState :=
  if ¬ (s.gamePhase = .battle ∧ s.currentPlayer = player) then s
  else
    match s.selectedCell with
    | none =>
      match s.board row col with
      | some piece =>
        if piece.player = player then { s with selectedCell := some (row, col) } else s
      | none => s
    | some (selRow, selCol) =>
      if selRow = row ∧ selCol = col then
        { s with selectedCell := none }
      else
        match s.board selRow selCol with
        | none => s
        | some selectedPiece =>
          match s.board row col with
          | none =>
            if canMove selectedPiece selRow selCol row col = true then
              if s.hasMoved = false then
                { movePiece selRow selCol row col s with hasMoved := true, selectedCell := none }
              else
                { s with selectedCell := none }
            else
              { s with selectedCell := none }
          | some targetPiece =>
            if targetPiece.player ≠ selectedPiece.player ∧
                canAttack selectedPiece selRow selCol row col s = true then
              if s.hasMoved = false then
                { s with selectedCell := none }
              else if s.hasAttacked = false then
                { attackPiece selRow selCol row col s with hasAttacked := true, selectedCell := none }
              else
                { s with selectedCell := none }
            else
              { s with selectedCell := none }

/-- The end-of-turn loop over rows `0..height-1`, cols `0..width-1`
clearing `chargeDirection` on Cavalry pieces. -/
def clearCharges (height width : Int) (b : Board) : Board := fun r c =>
  if 0 ≤ r ∧ r < height ∧ 0 ≤ c ∧ c < width then
    match b r c with
    | some p => if p.type = .cavalry then some { p with chargeDirection := none } else some p
    | none => none
  else b r c

def handleEndTurn (player : Nat) (s : GameState) : GameState :=
  if ¬ (s.currentPlayer = player) then s
  else if s.gamePhase = .placement ∧ ¬ (s.piecesPlacedThisTurn = 4) then s
  else
    let s1 := { s with selectedCell := none, hasMoved := false, hasAttacked := false,
                       board := clearCharges 7 6 s.board }
    if s1.gamePhase = .placement then
      let s2 := { s1 with piecesPlacedThisTurn := 0 }
      if s2.currentPlayer = 1 then { s2 with currentPlayer := 2 }
      else
        let s3 := { s2 with currentPlayer := 1, placementTurn := s2.placementTurn + 1 }
        if s3.placementTurn > 2 then { s3 with gamePhase := .battle } else s3
    else
      { s1 with currentPlayer := if s1.currentPlayer = 1 then 2 else 1 }

def handleToggleOption (opt : OptionKind) (s : GameState) : GameState :=
  if ¬ (s.gamePhase = .placement ∨ s.gamePhase = .waiting) then s
  else
    match opt with
    | .lineOfSight => { s with lineOfSightEnabled := !s.lineOfSightEnabled }
    | .limitedRange => { s with limitedRangeEnabled := !s.limitedRangeEnabled }

/-- The `gameAction` handler's seat gate followed by the toggleOption case:
a connection with no seat entry is dropped before dispatch. -/
def gameActionToggle (room : Room) (socketId : Nat) (opt : OptionKind) : Room :=
  match room.players.lookup socketId with
  | none => room
  | some _ => { room with gameState := handleToggleOption opt room.gameState }

/-- `GameRoom.removePlayer`; the returned Bool is `shouldDeleteRoom`. -/
def removePlayer (room : Room) (socketId : Nat) : Room × Bool :=
  if (room.players.lookup socketId).isSome then
    let players1 := room.players.filter (fun pr => pr.1 != socketId)
    if players1.length = 0 then
      ({ room with players := players1 }, true)
    else if players1.length = 1 then
      ({ room with players := players1.map (fun pr => (pr.1, 1)),
                   gameState := initialGameState }, false)
    else
      ({ room with players := players1 }, false)
  else if socketId ∈ room.spectators then
    ({ room with spectators := room.spectators.filter (fun x => x != socketId) }, false)
  else
    (room, false)

end P0

namespace AE

def nationsPieces : Nation → Roster
  | .english => fun pt =>
    match pt with
    | .general => some 1
    | .cavalry => some 2
    | .heavyInfantry => some 2
    | .lightInfantry => some 2
    | .archer => some 1
    | .horseArcher => none
  | .mongols => fun pt =>
    match pt with
    | .general => some 1
    | .cavalry => some 1
    | .horseArcher => some 2
    | .heavyInfantry => some 2
    | .lightInfantry => some 2
    | .archer => some 0
  | .macedonians => fun pt =>
    match pt with
    | .general => some 1
    | .cavalry => some 2
    | .heavyInfantry => some 2
    | .lightInfantry => some 2
    | .archer => some 1
    | .horseArcher => none
  | .spartans => fun pt =>
    match pt with
    | .general => some 1
    | .cavalry => some 2
    | .heavyInfantry => some 2
    | .lightInfantry => some 2
    | .archer => some 0
    | .horseArcher => none

/-- `nations[key].pieces`, with a missing key yielding the empty map
(the JS would throw there; unreachable while a nation is selected). -/
def nationRoster : Option Nation → Roster
  | some n => nationsPieces n
  | none => fun _ => none

def allPieceTypes : List PieceType :=
  [.general, .cavalry, .horseArcher, .heavyInfantry, .lightInfantry, .archer]

/-- `Object.values(pieces).reduce((a,b) => a+b, 0)`. -/
def sumRoster (ro : Roster) : Int :=
  (allPieceTypes.map (fun pt => (ro pt).getD 0)).sum

def pieceHealth : PieceType → Int
  | .general => 3
  | .cavalry => 2
  | .horseArcher => 2
  | .heavyInfantry => 3
  | .lightInfantry => 2
  | .archer => 2

def pieceAmmo : PieceType → Option Int
  | .archer => some 3
  | .horseArcher => some 2
  | _ => none

def createPieceData (pieceType : PieceType) (player : Nat) (nation : Option Nation)
    (placementTurn : Int) : Piece :=
  { type := pieceType
    player := player
    health := pieceHealth pieceType
    maxHealth := pieceHealth pieceType
    hasBeenReplenished := false
    placedInTurn := placementTurn
    nation := nation
    ammo := pieceAmmo pieceType
    chargeDirection := none }

def handlePlacePiece (player : Nat) (nation : Option Nation) (row col : Int)
    (s : GameState) : GameState :=
  if ¬ (s.currentPlayer = player ∧ s.gamePhase = .placement) then s
  else
    match s.selectedPieceType with
    | none => s
    | some pt =>
      let requiredPieces : Int :=
        if s.placementTurn = 1 then 4
        else sumRoster (if player = 1 then s.player1Pieces else s.player2Pieces)
      if s.piecesPlacedThisTurn ≥ requiredPieces then s
      else if (s.board row col).isSome then s
      else if ¬ (if player = 1 then row = 0 ∨ row = 1 ∨ row = 2 else row = 4 ∨ row = 5 ∨ row = 6) then s
      else if (if player = 1 then s.player1Pieces pt else s.player2Pieces pt) = some 0 then s
      else
        let pieceData := createPieceData pt player nation s.placementTurn
        let s1 := { s with board := setCell s.board row col (some pieceData) }
        let s2 :=
          if player = 1 then { s1 with player1Pieces := decRoster s1.player1Pieces pt }
          else { s1 with player2Pieces := decRoster s1.player2Pieces pt }
        { s2 with piecesPlacedThisTurn := s2.piecesPlacedThisTurn + 1,
                  selectedPieceType := none }

/-- End-of-turn loop for the 7×7 board: clears `chargeDirection` on Cavalry
and on Macedonian Generals. -/
def clearCharges (b : Board) : Board := fun r c =>
  if 0 ≤ r ∧ r < 7 ∧ 0 ≤ c ∧ c < 7 then
    match b r c with
    | some p =>
      if p.type = .cavalry ∨ (p.type = .general ∧ p.nation = some .macedonians) then
        some { p with chargeDirection := none }
      else some p
    | none => none
  else b r c

def handleEndTurn (player : Nat) (s : GameState) : GameState :=
  if ¬ (s.currentPlayer = player) then s
  else if s.gamePhase = .placement ∧
      ¬ (s.piecesPlacedThisTurn =
        (if s.placementTurn = 1 then (4 : Int)
         else sumRoster (nationRoster (if player = 1 then s.player1Nation else s.player2Nation)) - 4)) then s
  else
    let s1 := { s with selectedCell := none, selectedPieceType := none,
                       hasMoved := false, hasAttacked := false,
                       board := clearCharges s.board }
    if s1.gamePhase = .placement then
      let s2 := { s1 with piecesPlacedThisTurn := 0 }
      if s2.currentPlayer = 1 then { s2 with currentPlayer := 2 }
      else
        let s3 := { s2 with currentPlayer := 1, placementTurn := s2.placementTurn + 1 }
        if s3.placementTurn > 2 then { s3 with gamePhase := .battle } else s3
    else
      { s1 with currentPlayer := if s1.currentPlayer = 1 then 2 else 1 }

def canMove (piece : Piece) (fromRow fromCol toRow toCol : Int) : Bool :=
  if toRow < 0 ∨ toRow ≥ 7 ∨ toCol < 0 ∨ toCol ≥ 7 then false
  else if piece.type = .general ∧ piece.nation = some .macedonians then
    let rowDiff := (fromRow - toRow).natAbs
    let colDiff := (fromCol - toCol).natAbs
    decide ((rowDiff ≤ 2 ∧ colDiff = 0) ∨ (rowDiff = 0 ∧ colDiff ≤ 2))
  else if piece.type = .cavalry ∨ piece.type = .horseArcher then
    let rowDiff := (fromRow - toRow).natAbs
    let colDiff := (fromCol - toCol).natAbs
    decide ((rowDiff ≤ 2 ∧ colDiff = 0) ∨ (rowDiff = 0 ∧ colDiff ≤ 2))
  else if piece.type = .heavyInfantry ∧ piece.nation = some .spartans then
    let rowDiff := (fromRow - toRow).natAbs
    let colDiff := (fromCol - toCol).natAbs
    decide (rowDiff ≤ 1 ∧ colDiff ≤ 1 ∧ rowDiff + colDiff > 0)
  else
    decide (mdist fromRow fromCol toRow toCol = 1)

/-- Damage block of the Ancient-Empires `attackPiece` (charge bonus applies to
Cavalry and to Macedonian Generals). -/
def chargeDamage (attacker target : Piece) (attackerRow attackerCol targetRow targetCol : Int) : Int :=
  match attacker.chargeDirection with
  | some (dr, dc) =>
    if (attacker.type = .cavalry ∨ (attacker.type = .general ∧ attacker.nation = some .macedonians)) ∧
        mdist attackerRow attackerCol targetRow targetCol = 1 ∧
        target.type ≠ .heavyInfantry ∧ targetRow - attackerRow = dr ∧ targetCol - attackerCol = dc then
      2
    else 1
  | none => 1

def shouldConsumeAmmo (attacker target : Piece) (distance : Nat) : Bool :=
  if attacker.type = .archer ∧ attacker.nation = some .english then
    if target.health ≤ 1 then false else decide (distance > 1)
  else decide (distance > 1)

/-- One direction of the Spartan cleave loop; the Bool flag models the early
`return` taken when a cleaved General dies. -/
def cleaveOne (attacker : Piece) (attackerRow attackerCol targetRow targetCol dr dc : Int)
    (st : GameState × Bool) : GameState × Bool :=
  if st.2 = true then st
  else
    let cleaveRow := attackerRow + dr
    let cleaveCol := attackerCol + dc
    if 0 ≤ cleaveRow ∧ cleaveRow < 7 ∧ 0 ≤ cleaveCol ∧ cleaveCol < 7 then
      match st.1.board cleaveRow cleaveCol with
      | some cleaveTarget =>
        if cleaveTarget.player ≠ attacker.player ∧ ¬ (cleaveRow = targetRow ∧ cleaveCol = targetCol) then
          if cleaveTarget.health - 1 ≤ 0 then
            let s1 := { st.1 with board := setCell st.1.board cleaveRow cleaveCol none }
            if cleaveTarget.type = .general then
              ({ s1 with gameEnded := true, winner := some attacker.player }, true)
            else (s1, false)
          else
            ({ st.1 with board := (setCell st.1.board cleaveRow cleaveCol
                (some { cleaveTarget with health := cleaveTarget.health - 1 })) }, false)
        else st
      | none => st
    else st

/-- `handleSpartanCleave`: directions in source order up, down, left, right. -/
def handleSpartanCleave (attackerRow attackerCol targetRow targetCol : Int)
    (s : GameState) : GameState :=
  match s.board attackerRow attackerCol with
  | none => s
  | some attacker =>
    (cleaveOne attacker attackerRow attackerCol targetRow targetCol 0 1
      (cleaveOne attacker attackerRow attackerCol targetRow targetCol 0 (-1)
        (cleaveOne attacker attackerRow attackerCol targetRow targetCol 1 0
          (cleaveOne attacker attackerRow attackerCol targetRow targetCol (-1) 0 (s, false))))).1

def attackPiece (attackerRow attackerCol targetRow targetCol : Int) (s : GameState) : GameState :=
  if s.gameEnded = true then s
  else
    match s.board attackerRow attackerCol, s.board targetRow targetCol with
    | some attacker, some target =>
      let distance := mdist attackerRow attackerCol targetRow targetCol
      let damage := chargeDamage attacker target attackerRow attackerCol targetRow targetCol
      let s1 :=
        if shouldConsumeAmmo attacker target distance = true then
          { s with board := (setCell s.board attackerRow attackerCol
              (some { attacker with ammo := attacker.ammo.map (fun n => n - 1) })) }
        else s
      let target1 := { target with health := target.health - damage }
      let s2 := { s1 with board := setCell s1.board targetRow targetCol (some target1) }
      let s3 :=
        if attacker.type = .heavyInfantry ∧ attacker.nation = some .spartans then
          handleSpartanCleave attackerRow attackerCol targetRow targetCol s2
        else s2
      if target1.health ≤ 0 then
        let s4 := { s3 with board := setCell s3.board targetRow targetCol none }
        if target.type = .general then
          { s4 with gameEnded := true, winner := some attacker.player }
        else s4
      else s3
    | _, _ => s

end AE

structure BoardSize where
  width : Int
  height : Int
deriving DecidableEq

namespace P1

def canMove (piece : Piece) (fromRow fromCol toRow toCol : Int) (boardSize : BoardSize) : Bool :=
  if toRow < 0 ∨ toRow ≥ boardSize.height ∨ toCol < 0 ∨ toCol ≥ boardSize.width then false
  else if piece.type = .cavalry then
    let rowDiff := (fromRow - toRow).natAbs
    let colDiff := (fromCol - toCol).natAbs
    decide ((rowDiff ≤ 2 ∧ colDiff = 0) ∨ (rowDiff = 0 ∧ colDiff ≤ 2))
  else
    decide (mdist fromRow fromCol toRow toCol = 1)

end P1

/-! Claim-side predicates (phrased from the specification's words, to be
compared with the embedded source functions). -/

/-- A cell strictly between two cells on a shared row or column. -/
def cellBetween (fromRow fromCol toRow toCol r c : Int) : Prop :=
  (r = fromRow ∧ fromRow = toRow ∧ min fromCol toCol < c ∧ c < max fromCol toCol) ∨
  (c = fromCol ∧ fromCol = toCol ∧ min fromRow toRow < r ∧ r < max fromRow toRow)

/-- Archer attack legality as the specification words it: distance 1 is always
legal; distance above 1 needs ammo, a shared row or column, the range cap when
limited range is on, and an unobstructed line when line of sight is on. -/
def archerAttackLegal (piece : Piece) (fromRow fromCol toRow toCol : Int)
    (s : GameState) : Prop :=
  mdist fromRow fromCol toRow toCol = 1 ∨
  (mdist fromRow fromCol toRow toCol > 1 ∧ ammoPos piece.ammo = true ∧
   (fromRow = toRow ∨ fromCol = toCol) ∧
   (s.limitedRangeEnabled = true → mdist fromRow fromCol toRow toCol ≤ 4) ∧
   (s.lineOfSightEnabled = true →
     ∀ r c, cellBetween fromRow fromCol toRow toCol r c → s.board r c = none))

/-- The effect of one direction of the cleave loop on the cell it visits. -/
def AE.cleaveEffect (attacker : Piece) (targetRow targetCol cleaveRow cleaveCol : Int)
    (cell : Option Piece) : Option Piece :=
  if 0 ≤ cleaveRow ∧ cleaveRow < 7 ∧ 0 ≤ cleaveCol ∧ cleaveCol < 7 then
    match cell with
    | some ct =>
      if ct.player ≠ attacker.player ∧ ¬ (cleaveRow = targetRow ∧ cleaveCol = targetCol) then
        if ct.health - 1 ≤ 0 then none else some { ct with health := ct.health - 1 }
      else some ct
    | none => none
  else cell

/-- The condition under which one direction of the cleave loop kills a General
(triggering the early return of `handleSpartanCleave`). -/
def AE.cleaveKillsGeneral (attacker : Piece) (targetRow targetCol cleaveRow cleaveCol : Int)
    (cell : Option Piece) : Prop :=
  (0 ≤ cleaveRow ∧ cleaveRow < 7 ∧ 0 ≤ cleaveCol ∧ cleaveCol < 7) ∧
  ∃ ct, cell = some ct ∧ ct.player ≠ attacker.player ∧
    ¬ (cleaveRow = targetRow ∧ cleaveCol = targetCol) ∧
    ct.health - 1 ≤ 0 ∧ ct.type = .general

/-! Concrete pieces, boards, states and rooms used as counterexamples and
witness inputs. -/

def liP1 : Piece := P0.mkPiece .lightInfantry 1

def liP2 : Piece := P0.mkPiece .lightInfantry 2

def hiP2 : Piece := P0.mkPiece .heavyInfantry 2

def cav1 : Piece := P0.mkPiece .cavalry 1

def archer1 : Piece := P0.mkPiece .archer 1

def genP2 : Piece := { P0.mkPiece .general 2 with health := 1 }

/-- Battle state: seat 1's Light Infantry at (3,3) selected, seat 2's
General at (3,4) on 1 health, a spare seat-2 piece at (0,0). -/
def sC1 : GameState :=
  { P0.initialGameState with
    gamePhase := .battle
    currentPlayer := 1
    hasMoved := true
    selectedCell := some (3, 3)
    board := fun r c =>
      if r = 3 ∧ c = 3 then some liP1
      else if r = 3 ∧ c = 4 then some genP2
      else if r = 0 ∧ c = 0 then some liP2
      else none }

/-- Seat 1's remaining Mongol roster on placement round 2 after two of the
four round-2 placements (one Heavy and one Light Infantry left). -/
def rosterC3 : Roster := fun pt =>
  match pt with
  | .heavyInfantry => some 1
  | .lightInfantry => some 1
  | _ => some 0

def sC3 : GameState :=
  { P0.initialGameState with
    gamePhase := .placement
    currentPlayer := 1
    placementTurn := 2
    piecesPlacedThisTurn := 2
    player1Nation := some .mongols
    player1Pieces := rosterC3
    selectedPieceType := some .heavyInfantry }

/-- Battle state with seat 1's archer at (0,0) and seat 2's Light Infantry
at (0,5) on the same row. -/
def sC4 : GameState :=
  { P0.initialGameState with
    gamePhase := .battle
    currentPlayer := 1
    board := fun r c =>
      if r = 0 ∧ c = 0 then some archer1
      else if r = 0 ∧ c = 5 then some liP2
      else none }

/-- Like `sC4` but the archer is out of ammo and selected, so the ranged
attack on (0,5) is rejected. -/
def sC4r : GameState :=
  { P0.initialGameState with
    gamePhase := .battle
    currentPlayer := 1
    hasMoved := true
    selectedCell := some (0, 0)
    board := fun r c =>
      if r = 0 ∧ c = 0 then some { archer1 with ammo := some 0 }
      else if r = 0 ∧ c = 5 then some liP2
      else none }

/-- Battle state for the cavalry charge: seat 1's Cavalry at (2,2), seat 2's
Light Infantry at (2,5). -/
def sC5 : GameState :=
  { P0.initialGameState with
    gamePhase := .battle
    currentPlayer := 1
    board := fun r c =>
      if r = 2 ∧ c = 2 then some cav1
      else if r = 2 ∧ c = 5 then some liP2
      else none }

/-- Seat 1's Cavalry carrying a recorded charge vector (0,1). -/
def cavC : Piece := { cav1 with chargeDirection := some (0, 1) }

/-- Battle state after the charge move: the charged Cavalry at (2,4) and the
enemy Light Infantry adjacent at (2,5), in the charge direction. -/
def sC5b : GameState :=
  { P0.initialGameState with
    gamePhase := .battle
    currentPlayer := 1
    board := fun r c =>
      if r = 2 ∧ c = 4 then some cavC
      else if r = 2 ∧ c = 5 then some liP2
      else none }

def spartanHI : Piece := AE.createPieceData .heavyInfantry 1 (some .spartans) 1

def aeGen2 : Piece := { AE.createPieceData .general 2 (some .english) 1 with health := 1 }

def aeLI2a : Piece := AE.createPieceData .lightInfantry 2 (some .english) 1

def aeLI2b : Piece := AE.createPieceData .lightInfantry 2 (some .english) 1

/-- Ancient-Empires battle state: Spartan Heavy Infantry at (3,3) about to
strike the Light Infantry at (3,4); an enemy General on 1 health sits above
at (2,3) and another enemy Light Infantry to the left at (3,2). -/
def sC6 : GameState :=
  { P0.initialGameState with
    gamePhase := .battle
    currentPlayer := 1
    board := fun r c =>
      if r = 3 ∧ c = 3 then some spartanHI
      else if r = 3 ∧ c = 4 then some aeLI2a
      else if r = 2 ∧ c = 3 then some aeGen2
      else if r = 3 ∧ c = 2 then some aeLI2b
      else none }

/-- Like `sC6` but with no General in cleave range: the Spartan at (3,3),
the primary target at (3,4), and a 2-health enemy at (3,2). -/
def sC6b : GameState :=
  { P0.initialGameState with
    gamePhase := .battle
    currentPlayer := 1
    board := fun r c =>
      if r = 3 ∧ c = 3 then some spartanHI
      else if r = 3 ∧ c = 4 then some aeLI2a
      else if r = 3 ∧ c = 2 then some aeLI2b
      else none }

/-- Like `sC6` but the 1-health enemy General sits to the LEFT of the
Spartan attacker, so the kill comes from the third cleave direction. -/
def sC6c : GameState :=
  { P0.initialGameState with
    gamePhase := .battle
    currentPlayer := 1
    board := fun r c =>
      if r = 3 ∧ c = 3 then some spartanHI
      else if r = 3 ∧ c = 4 then some aeLI2a
      else if r = 3 ∧ c = 2 then some aeGen2
      else none }

/-- Seat 2's General on 2 health: killable in one blow only by a charge. -/
def genC : Piece := { P0.mkPiece .general 2 with health := 2 }

/-- Battle state for a charge kill: seat 1's charged Cavalry (vector (0,1))
at (2,4), the 2-health enemy General adjacent at (2,5). -/
def sC1b : GameState :=
  { P0.initialGameState with
    gamePhase := .battle
    currentPlayer := 1
    hasMoved := true
    board := fun r c =>
      if r = 2 ∧ c = 4 then some cavC
      else if r = 2 ∧ c = 5 then some genC
      else none }

/-- A battle state after a win (`gameEnded` already true, winner seat 1):
seat 1's Light Infantry at (3,3), seat 2's at (0,0), nothing selected. -/
def sWin : GameState :=
  { P0.initialGameState with
    gamePhase := .battle
    currentPlayer := 1
    gameEnded := true
    winner := some 1
    board := fun r c =>
      if r = 3 ∧ c = 3 then some liP1
      else if r = 0 ∧ c = 0 then some liP2
      else none }

/-- `sWin` with the piece at (3,3) selected. -/
def sWinSel : GameState := { sWin with selectedCell := some (3, 3) }

/-- Battle state with seat 1's Light Infantry at (3,3) selected and every
other cell empty: clicking (0,0) is an illegal move. -/
def sC7 : GameState :=
  { P0.initialGameState with
    gamePhase := .battle
    currentPlayer := 1
    selectedCell := some (3, 3)
    board := fun r c => if r = 3 ∧ c = 3 then some liP1 else none }

/-- Battle state with seat 1's Light Infantry at (0,0) selected; clicking
(0,-1) is out of the board. -/
def sC9 : GameState :=
  { P0.initialGameState with
    gamePhase := .battle
    currentPlayer := 1
    selectedCell := some (0, 0)
    board := fun r c => if r = 0 ∧ c = 0 then some liP1 else none }

/-- One seat and one spectator. -/
def roomA : Room :=
  { players := [(1, 1)], spectators := [2], gameState := P0.initialGameState }

/-- No seats, one spectator. -/
def roomB : Room :=
  { players := [], spectators := [2], gameState := P0.initialGameState }

/-- Seat 2 (socket 5) present while it is seat 1's turn, placement phase. -/
def roomW : Room :=
  { players := [(5, 2)], spectators := []
    gameState := { P0.initialGameState with gamePhase := .placement, currentPlayer := 1 } }

/-- Two seats and a spectator (socket 9). -/
def roomS : Room :=
  { players := [(1, 1), (2, 2)], spectators := [9]
    gameState := { P0.initialGameState with gamePhase := .placement } }

/-- A seated room already in the battle phase. -/
def roomBt : Room :=
  { players := [(1, 1)], spectators := []
    gameState := { P0.initialGameState with gamePhase := .battle } }

/-! Helper lemmas. -/

theorem setCell_same (b : Board) (r c : Int) (v : Option Piece) :
    setCell b r c v r c = v := by
  simp [setCell]

theorem setCell_ne (b : Board) (r c : Int) (v : Option Piece) (r' c' : Int)
    (h : ¬ (r' = r ∧ c' = c)) : setCell b r c v r' c' = b r' c' := by
  simp [setCell, h]

theorem setCell_self (b : Board) (r c : Int) : setCell b r c (b r c) = b := by
  funext r' c'
  by_cases h : r' = r ∧ c' = c
  · obtain ⟨h1, h2⟩ := h
    subst h1; subst h2
    simp [setCell]
  · simp [setCell, h]

/-! C9.  The rule engine's bounds check on move destinations:
`P0.canMove` (the 6×7 variant) has no bounds check and accepts the
out-of-board destination (0,-1), and the 6×7 variant's `handleSelectCell`
then moves the piece there; the Ancient-Empires and configurable-board
variants both reject it. -/

/-- C9: evaluation at the failing input. `P0.canMove` returns `true` for a
destination in column -1, outside the board, and the accepted move writes
the piece to that out-of-board cell, while `AE.canMove` and `P1.canMove`
return `false` for the same destination. -/
theorem C9_canMove_bounds_eval :
    P0.canMove liP1 0 0 0 (-1) = true ∧
    AE.canMove liP1 0 0 0 (-1) = false ∧
    P1.canMove liP1 0 0 0 (-1) ⟨6, 7⟩ = false ∧
    ((P0.handleSelectCell 1 0 (-1) sC9).board 0 (-1)) = some liP1 ∧
    ((P0.handleSelectCell 1 0 (-1) sC9).board 0 0) = none ∧
    (P0.handleSelectCell 1 0 (-1) sC9).hasMoved = true := by
  decide

/-! C8.  Room removal on departure (`P0.removePlayer`, returning the
`shouldDeleteRoom` flag). -/

/-- C8 counterexample: a seat's departure that leaves a spectator but no
seats still deletes the room, and a spectator's departure from a seatless
room does not delete it — both contrary to the claim. -/
theorem C8_counterexample :
    (P0.removePlayer roomA 1).2 = true ∧ roomA.spectators = [2] ∧
    (P0.removePlayer roomA 1).1.spectators = [2] ∧
    (P0.removePlayer roomB 2).2 = false ∧ roomB.players = [] := by
  decide

/-- C8 (amended): a room is flagged for deletion exactly when the departing
connection held a seat and no seats remain afterwards; spectators are
irrelevant to the decision and spectator departures never delete a room. -/
theorem C8_removal_amended (room : Room) (socketId : Nat) :
    (P0.removePlayer room socketId).2 = true ↔
      ((room.players.lookup socketId).isSome = true ∧
       room.players.filter (fun pr => pr.1 != socketId) = []) := by
  unfold P0.removePlayer
  by_cases h : (room.players.lookup socketId).isSome = true
  · simp only [h, if_true]
    by_cases hl : (room.players.filter (fun pr => pr.1 != socketId)).length = 0
    · simp [hl, List.length_eq_zero.mp hl]
    · have hne : ¬ room.players.filter (fun pr => pr.1 != socketId) = [] := by
        intro he
        exact hl (by simp [he])
      by_cases hl1 : (room.players.filter (fun pr => pr.1 != socketId)).length = 1 <;>
        simp [hl, hl1, hne]
  · simp only [h, if_false]
    by_cases hs : socketId ∈ room.spectators <;> simp [hs, h]

/-! C3.  Placement quotas in the Ancient-Empires variant: the quota enforced
by `handlePlacePiece` on round 2 is the current remaining-roster sum (which
shrinks with every placement), while `handleEndTurn` demands the fixed
nation-catalog total minus 4. -/

/-- C3: evaluation at the failing input. Seat 1 (Mongols, catalog total 8)
is on placement round 2 with 2 pieces placed this turn and 2 left in the
roster: a further placement is rejected (2 ≥ remaining-sum 2) and ending
the turn is also rejected (placed 2 ≠ catalog quota 8-4 = 4), so the round
can never be completed — the two handlers use different quotas. -/
theorem C3_quota_deadlock_eval :
    AE.handlePlacePiece 1 (some .mongols) 0 0 sC3 = sC3 ∧
    AE.handleEndTurn 1 sC3 = sC3 ∧
    sC3.gamePhase = .placement ∧
    sC3.placementTurn = 2 ∧
    sC3.piecesPlacedThisTurn = 2 ∧
    AE.sumRoster sC3.player1Pieces = 2 ∧
    AE.sumRoster (AE.nationsPieces .mongols) - 4 = 4 ∧
    sC3.board 0 0 = none ∧
    sC3.selectedPieceType = some .heavyInfantry ∧
    sC3.currentPlayer = 1 := by
  refine ⟨rfl, rfl, rfl, rfl, rfl, by decide, by decide, rfl, rfl, rfl⟩

/-! C10.  Option toggling: seat-gated but not turn-gated, and only in the
`waiting` or `placement` phases. -/

/-- C10: any seated player (regardless of whose turn it is) flips exactly the
addressed toggle while the phase is `waiting` or `placement`; a connection
with no seat (a spectator) changes nothing; and in any other phase the
intent leaves the room unchanged. -/
theorem C10_toggle_gating :
    (∀ (room : Room) (socketId pn : Nat) (opt : OptionKind),
      room.players.lookup socketId = some pn →
      (room.gameState.gamePhase = .waiting ∨ room.gameState.gamePhase = .placement) →
      (P0.gameActionToggle room socketId opt).gameState.lineOfSightEnabled =
        (if opt = .lineOfSight then !room.gameState.lineOfSightEnabled
         else room.gameState.lineOfSightEnabled) ∧
      (P0.gameActionToggle room socketId opt).gameState.limitedRangeEnabled =
        (if opt = .limitedRange then !room.gameState.limitedRangeEnabled
         else room.gameState.limitedRangeEnabled) ∧
      (P0.gameActionToggle room socketId opt).gameState.board = room.gameState.board ∧
      (P0.gameActionToggle room socketId opt).gameState.currentPlayer = room.gameState.currentPlayer ∧
      (P0.gameActionToggle room socketId opt).gameState.gamePhase = room.gameState.gamePhase) ∧
    (∀ (room : Room) (socketId : Nat) (opt : OptionKind),
      room.players.lookup socketId = none →
      P0.gameActionToggle room socketId opt = room) ∧
    (∀ (room : Room) (socketId pn : Nat) (opt : OptionKind),
      room.players.lookup socketId = some pn →
      room.gameState.gamePhase ≠ .waiting →
      room.gameState.gamePhase ≠ .placement →
      P0.gameActionToggle room socketId opt = room) := by
  refine ⟨?_, ?_, ?_⟩
  · intro room socketId pn opt hseat hphase
    have hgate : (room.gameState.gamePhase = Phase.placement ∨
        room.gameState.gamePhase = Phase.waiting) := hphase.symm
    simp only [P0.gameActionToggle, hseat]
    cases opt <;>
      simp [P0.handleToggleOption, hgate]
  · intro room socketId opt hseat
    simp [P0.gameActionToggle, hseat]
  · intro room socketId pn opt hseat h1 h2
    have hgate : ¬ (room.gameState.gamePhase = Phase.placement ∨
        room.gameState.gamePhase = Phase.waiting) := by
      rintro (h | h)
      · exact h2 h
      · exact h1 h
    simp only [P0.gameActionToggle, hseat]
    cases room
    simp [P0.handleToggleOption, hgate]

/-- C10 witness: seat 2 (socket 5) toggles line of sight while it is seat 1's
turn in `roomW`; spectator socket 9 toggling in `roomS` changes nothing; and
a toggle intent in the battle-phase `roomBt` changes nothing. -/
theorem C10_toggle_gating_witness :
    ((P0.gameActionToggle roomW 5 .lineOfSight).gameState.lineOfSightEnabled =
      (if OptionKind.lineOfSight = .lineOfSight then !roomW.gameState.lineOfSightEnabled
       else roomW.gameState.lineOfSightEnabled)) ∧
    P0.gameActionToggle roomS 9 .limitedRange = roomS ∧
    P0.gameActionToggle roomBt 1 .lineOfSight = roomBt := by
  refine ⟨(C10_toggle_gating.1 roomW 5 2 .lineOfSight rfl (Or.inr rfl)).1, ?_, ?_⟩
  · exact C10_toggle_gating.2.1 roomS 9 .limitedRange rfl
  · exact C10_toggle_gating.2.2 roomBt 1 1 .lineOfSight rfl (by decide) (by decide)

/-! C7.  What a rejected intent leaves behind. -/

/-- C7 counterexample: in `sC7` a piece is selected at (3,3) and the click on
(0,0) is an illegal move (`canMove` is false, nothing happens to the board or
flags), yet the state is not exactly as before — the selection cursor is
cleared from `some (3,3)` to `none`, contradicting the claim. -/
theorem C7_counterexample :
    sC7.selectedCell = some (3, 3) ∧
    P0.canMove liP1 3 3 0 0 = false ∧
    sC7.board 3 3 = some liP1 ∧
    (P0.handleSelectCell 1 0 0 sC7).selectedCell = none ∧
    (P0.handleSelectCell 1 0 0 sC7).board 3 3 = sC7.board 3 3 ∧
    (P0.handleSelectCell 1 0 0 sC7).board 0 0 = none ∧
    (P0.handleSelectCell 1 0 0 sC7).hasMoved = false ∧
    (P0.handleSelectCell 1 0 0 sC7).hasAttacked = false := by
  decide

/-- C7 (amended): every rejected placePiece, endTurn, or selectCell intent
leaves the state exactly unchanged, except that a battle-phase rejection
that happens while a piece is selected (illegal move or attack geometry,
repeated move/attack, or attacking before moving) clears the selection
cursor and changes nothing else. -/
theorem C7_rejection_amended :
    (∀ (s : GameState) (player : Nat) (pieceType : PieceType) (row col : Int),
      (¬ (s.currentPlayer = player ∧ s.gamePhase = .placement) ∨
       s.piecesPlacedThisTurn ≥ 4 ∨
       (s.board row col).isSome = true ∨
       ¬ (if player = 1 then row ≤ 2 else row ≥ 4) ∨
       (if player = 1 then s.player1Pieces pieceType else s.player2Pieces pieceType) = some 0) →
      P0.handlePlacePiece player pieceType row col s = s) ∧
    (∀ (s : GameState) (player : Nat),
      (¬ s.currentPlayer = player ∨ (s.gamePhase = .placement ∧ s.piecesPlacedThisTurn ≠ 4)) →
      P0.handleEndTurn player s = s) ∧
    (∀ (s : GameState) (player : Nat) (row col : Int),
      ¬ (s.gamePhase = .battle ∧ s.currentPlayer = player) →
      P0.handleSelectCell player row col s = s) ∧
    (∀ (s : GameState) (player : Nat) (row col : Int),
      s.gamePhase = .battle → s.currentPlayer = player → s.selectedCell = none →
      (s.board row col = none ∨ ∃ q, s.board row col = some q ∧ q.player ≠ player) →
      P0.handleSelectCell player row col s = s) ∧
    (∀ (s : GameState) (player : Nat) (row col selRow selCol : Int) (sp : Piece),
      s.gamePhase = .battle → s.currentPlayer = player →
      s.selectedCell = some (selRow, selCol) → s.board selRow selCol = some sp →
      ¬ (selRow = row ∧ selCol = col) → s.board row col = none →
      (P0.canMove sp selRow selCol row col = false ∨ s.hasMoved = true) →
      P0.handleSelectCell player row col s = { s with selectedCell := none }) ∧
    (∀ (s : GameState) (player : Nat) (row col selRow selCol : Int) (sp tp : Piece),
      s.gamePhase = .battle → s.currentPlayer = player →
      s.selectedCell = some (selRow, selCol) → s.board selRow selCol = some sp →
      ¬ (selRow = row ∧ selCol = col) → s.board row col = some tp →
      (tp.player = sp.player ∨ P0.canAttack sp selRow selCol row col s = false ∨
       s.hasMoved = false ∨ s.hasAttacked = true) →
      P0.handleSelectCell player row col s = { s with selectedCell := none }) := by
  refine ⟨?_, ?_, ?_, ?_, ?_, ?_⟩
  · intro s player pieceType row col hrej
    unfold P0.handlePlacePiece
    split_ifs <;> first | rfl | (exfalso; simp_all)
  · intro s player hrej
    unfold P0.handleEndTurn
    split_ifs <;> first | rfl | (exfalso; simp_all)
  · intro s player row col h
    unfold P0.handleSelectCell
    simp [h]
  · intro s player row col hph hcur hsel h
    unfold P0.handleSelectCell
    rcases h with h | ⟨q, hq, hqp⟩ <;> simp [hph, hcur, hsel, *]
  · intro s player row col selRow selCol sp hph hcur hsel hsp hne htgt hrej
    unfold P0.handleSelectCell
    simp only [hph, hcur, hsel, hsp, htgt, hne]
    rcases hrej with h | h <;> simp [h]
  · intro s player row col selRow selCol sp tp hph hcur hsel hsp hne htgt hrej
    unfold P0.handleSelectCell
    simp only [hph, hcur, hsel, hsp, htgt, hne]
    rcases hrej with h | h | h | h
    · simp [h]
    · simp [h]
    · by_cases h2 : tp.player = sp.player
      · simp [h2]
      · by_cases h3 : P0.canAttack sp selRow selCol row col s = true
        · simp [h2, h3, h]
        · simp [h2, h3]
    · by_cases h2 : tp.player = sp.player
      · simp [h2]
      · by_cases h3 : P0.canAttack sp selRow selCol row col s = true
        · by_cases h4 : s.hasMoved = false
          · simp [h2, h3, h4]
          · simp [h2, h3, h4, h]
        · simp [h2, h3]

/-- C7 witness: the six rejection shapes at concrete inputs — an off-turn
placement, an unfilled-quota end turn, a selectCell in the placement phase,
a click on an empty cell with nothing selected, the illegal move of `sC7`
(cursor cleared), and the out-of-ammo ranged attack of `sC4r` (cursor
cleared). -/
theorem C7_rejection_amended_witness :
    P0.handlePlacePiece 2 .general 4 0 sC3 = sC3 ∧
    P0.handleEndTurn 1 sC3 = sC3 ∧
    P0.handleSelectCell 1 0 0 sC3 = sC3 ∧
    P0.handleSelectCell 1 5 5 sC4 = sC4 ∧
    P0.handleSelectCell 1 0 0 sC7 = { sC7 with selectedCell := none } ∧
    P0.handleSelectCell 1 0 5 sC4r = { sC4r with selectedCell := none } := by
  refine ⟨?_, ?_, ?_, ?_, ?_, ?_⟩
  · exact C7_rejection_amended.1 sC3 2 .general 4 0 (Or.inl (by decide))
  · exact C7_rejection_amended.2.1 sC3 1 (Or.inr ⟨rfl, by decide⟩)
  · exact C7_rejection_amended.2.2.1 sC3 1 0 0 (by decide)
  · exact C7_rejection_amended.2.2.2.1 sC4 1 5 5 rfl rfl rfl (Or.inl rfl)
  · exact C7_rejection_amended.2.2.2.2.1 sC7 1 0 0 3 3 liP1 rfl rfl rfl rfl
      (by decide) rfl (Or.inl (by decide))
  · exact C7_rejection_amended.2.2.2.2.2 sC4r 1 0 5 0 0
      { archer1 with ammo := some 0 } liP2 rfl rfl rfl rfl (by decide) rfl
      (Or.inr (Or.inl (by decide)))

/-! Lemmas about damage and the cleave loop. -/

theorem one_le_chargeDamage_p0 (a t : Piece) (r c r' c' : Int) :
    1 ≤ P0.chargeDamage a t r c r' c' := by
  unfold P0.chargeDamage
  split
  · split_ifs <;> norm_num
  · norm_num

theorem cleaveOne_flagTrue (attacker : Piece) (aR aC tR tC dr dc : Int) (st : GameState × Bool)
    (h : st.2 = true) : AE.cleaveOne attacker aR aC tR tC dr dc st = st := by
  unfold AE.cleaveOne
  simp [h]

theorem cleaveOne_noKill (attacker : Piece) (aR aC tR tC dr dc : Int) (s : GameState)
    (h : ¬ AE.cleaveKillsGeneral attacker tR tC (aR + dr) (aC + dc) (s.board (aR + dr) (aC + dc))) :
    AE.cleaveOne attacker aR aC tR tC dr dc (s, false) =
      ({ s with board := (setCell s.board (aR + dr) (aC + dc)
          (AE.cleaveEffect attacker tR tC (aR + dr) (aC + dc) (s.board (aR + dr) (aC + dc)))) }, false) := by
  by_cases hb : 0 ≤ aR + dr ∧ aR + dr < 7 ∧ 0 ≤ aC + dc ∧ aC + dc < 7
  · cases hcell : s.board (aR + dr) (aC + dc) with
    | none =>
      have hself : setCell s.board (aR + dr) (aC + dc) none = s.board := by
        conv_lhs => rw [← hcell]
        exact setCell_self s.board (aR + dr) (aC + dc)
      unfold AE.cleaveOne AE.cleaveEffect
      simp [hb, hcell, hself]
    | some ct =>
      by_cases hen : ct.player ≠ attacker.player ∧ ¬ (aR + dr = tR ∧ aC + dc = tC)
      · by_cases hd : ct.health - 1 ≤ 0
        · have hng : ct.type ≠ .general := by
            intro hgen
            exact h ⟨hb, ct, hcell, hen.1, hen.2, hd, hgen⟩
          unfold AE.cleaveOne AE.cleaveEffect
          simp [hb, hcell, hen, hd, hng]
        · unfold AE.cleaveOne AE.cleaveEffect
          simp [hb, hcell, hen, hd]
      · have hself : setCell s.board (aR + dr) (aC + dc) (some ct) = s.board := by
          conv_lhs => rw [← hcell]
          exact setCell_self s.board (aR + dr) (aC + dc)
        have hen' : ¬ (¬ ct.player = attacker.player ∧ (aR + dr = tR → ¬ aC + dc = tC)) := by
          tauto
        unfold AE.cleaveOne AE.cleaveEffect
        simp [hb, hcell, hen', hself]
  · have hself : setCell s.board (aR + dr) (aC + dc) (s.board (aR + dr) (aC + dc)) = s.board :=
      setCell_self s.board (aR + dr) (aC + dc)
    unfold AE.cleaveOne AE.cleaveEffect
    simp [hb, hself]

theorem cleaveOne_kill (attacker : Piece) (aR aC tR tC dr dc : Int) (s : GameState)
    (h : AE.cleaveKillsGeneral attacker tR tC (aR + dr) (aC + dc) (s.board (aR + dr) (aC + dc))) :
    AE.cleaveOne attacker aR aC tR tC dr dc (s, false) =
      ({ s with board := setCell s.board (aR + dr) (aC + dc) none,
                gameEnded := true, winner := some attacker.player }, true) := by
  obtain ⟨hb, ct, hcell, hpl, hnp, hd, hgen⟩ := h
  unfold AE.cleaveOne
  simp [hb, hcell, hpl, hnp, hd, hgen]

theorem handleSpartanCleave_eq (aR aC tR tC : Int) (s : GameState) (attacker : Piece)
    (ha : s.board aR aC = some attacker) :
    AE.handleSpartanCleave aR aC tR tC s =
      (AE.cleaveOne attacker aR aC tR tC 0 1
        (AE.cleaveOne attacker aR aC tR tC 0 (-1)
          (AE.cleaveOne attacker aR aC tR tC 1 0
            (AE.cleaveOne attacker aR aC tR tC (-1) 0 (s, false))))).1 := by
  unfold AE.handleSpartanCleave
  rw [ha]

/-! C1.  What a kill of the General actually does. -/

/-- C1 counterexample: in `sC1` the selectCell attack (3,3)→(3,4) kills the
enemy General, and `gameEnded`/`winner` are set — but the phase stays
`battle` (there is no `ended` phase in the code), and the subsequent
endTurn intent from seat 1 is accepted and flips `currentPlayer` to 2,
contradicting "phase becomes `ended`" and "every subsequent intent is
rejected with no state change". -/
theorem C1_counterexample :
    (P0.handleSelectCell 1 3 4 sC1).gameEnded = true ∧
    (P0.handleSelectCell 1 3 4 sC1).winner = some 1 ∧
    (P0.handleSelectCell 1 3 4 sC1).gamePhase = .battle ∧
    (P0.handleSelectCell 1 3 4 sC1).currentPlayer = 1 ∧
    (P0.handleEndTurn 1 (P0.handleSelectCell 1 3 4 sC1)).currentPlayer = 2 := by
  decide

/-! C2.  One piece per cell: the operations that could violate it. -/

theorem attackPiece_attacker_cell (s : GameState) (aR aC tR tC : Int) (attacker : Piece)
    (ha : s.board aR aC = some attacker) (hne : ¬ (aR = tR ∧ aC = tC)) :
    (P0.attackPiece aR aC tR tC s).board aR aC ≠ none := by
  unfold P0.attackPiece
  by_cases h0 : s.gameEnded = true
  · simp [h0, ha]
  · cases ht : s.board tR tC with
    | none => simp [h0, ha, ht]
    | some target =>
      simp only [h0, ha, ht, Bool.false_eq_true, if_false]
      split_ifs <;> simp [setCell, hne, ha]

/-- C2: each cell holds an `Option Piece` (exactly the JS piece-or-null
cell), and the mutating operations preserve the one-piece-per-cell reading:
a placement writes only the addressed cell and is rejected outright when
that cell is occupied; a move nulls the source and fills the destination in
the same step; a selectCell intent on an occupied destination never clears
the source cell (no move happens); and attack damage nulls the target cell
exactly when the dealt damage brings its health to 0 or below. -/
theorem C2_cell_exclusivity :
    (∀ (s : GameState) (player : Nat) (pieceType : PieceType) (row col r' c' : Int),
      ¬ (r' = row ∧ c' = col) →
      (P0.handlePlacePiece player pieceType row col s).board r' c' = s.board r' c') ∧
    (∀ (s : GameState) (player : Nat) (pieceType : PieceType) (row col : Int),
      (s.board row col).isSome = true →
      P0.handlePlacePiece player pieceType row col s = s) ∧
    (∀ (s : GameState) (fr fc tr tc : Int) (piece : Piece),
      s.board fr fc = some piece → ¬ (fr = tr ∧ fc = tc) →
      (P0.movePiece fr fc tr tc s).board fr fc = none ∧
      ((P0.movePiece fr fc tr tc s).board tr tc).isSome = true) ∧
    (∀ (s : GameState) (player : Nat) (r c selRow selCol : Int) (sp tp : Piece),
      s.gamePhase = .battle → s.currentPlayer = player →
      s.selectedCell = some (selRow, selCol) → s.board selRow selCol = some sp →
      ¬ (selRow = r ∧ selCol = c) → s.board r c = some tp →
      (P0.handleSelectCell player r c s).board selRow selCol ≠ none) ∧
    (∀ (s : GameState) (aR aC tR tC : Int) (attacker target : Piece),
      s.gameEnded = false → s.board aR aC = some attacker → s.board tR tC = some target →
      ((P0.attackPiece aR aC tR tC s).board tR tC = none ↔
        target.health - P0.chargeDamage attacker target aR aC tR tC ≤ 0)) := by
  refine ⟨?_, ?_, ?_, ?_, ?_⟩
  · intro s player pieceType row col r' c' h
    unfold P0.handlePlacePiece
    split_ifs <;> first | rfl | simp [setCell, h]
  · intro s player pieceType row col h
    unfold P0.handlePlacePiece
    split_ifs <;> first | rfl | simp_all
  · intro s fr fc tr tc piece hp hne
    have hne2 : ¬ (tr = fr ∧ tc = fc) := fun h2 => hne ⟨h2.1.symm, h2.2.symm⟩
    unfold P0.movePiece
    simp only [hp]
    constructor
    · simp [setCell]
    · simp [setCell, hne2]
  · intro s player r c selRow selCol sp tp hph hcur hsel hsp hne htgt
    unfold P0.handleSelectCell
    simp only [hph, hcur, hsel, hsp, htgt, hne]
    by_cases h1 : tp.player ≠ sp.player ∧ P0.canAttack sp selRow selCol r c s = true
    · by_cases h2 : s.hasMoved = false
      · simp [h1, h2, hsp]
      · by_cases h3 : s.hasAttacked = false
        · obtain ⟨h1a, h1b⟩ := h1
          simp [h1a, h1b, h2, h3]
          simpa using attackPiece_attacker_cell s selRow selCol r c sp hsp hne
        · simp [h1, h2, h3, hsp]
    · simp [h1, hsp]
  · intro s aR aC tR tC attacker target h0 ha ht
    unfold P0.attackPiece
    simp only [h0, ha, ht, Bool.false_eq_true, if_false]
    by_cases hk : target.health - P0.chargeDamage attacker target aR aC tR tC ≤ 0 <;>
      split_ifs <;> simp_all [setCell]

/-- C2 witness: a placement in `sC3` leaves the faraway cell (5,5) alone; a
placement aimed at the occupied cell (3,3) of `sC7` is rejected whole; the
cavalry move in `sC5` clears (2,2) and fills (2,4); the attack click on the
occupied cell (3,4) of `sC1` keeps the attacker's cell nonempty; and that
same attack removes the 1-health General exactly because 1 - 1 ≤ 0. -/
theorem C2_cell_exclusivity_witness :
    (P0.handlePlacePiece 1 .general 0 0 sC3).board 5 5 = sC3.board 5 5 ∧
    P0.handlePlacePiece 1 .cavalry 3 3 sC7 = sC7 ∧
    ((P0.movePiece 2 2 2 4 sC5).board 2 2 = none ∧
     ((P0.movePiece 2 2 2 4 sC5).board 2 4).isSome = true) ∧
    (P0.handleSelectCell 1 3 4 sC1).board 3 3 ≠ none ∧
    ((P0.attackPiece 3 3 3 4 sC1).board 3 4 = none ↔
      genP2.health - P0.chargeDamage liP1 genP2 3 3 3 4 ≤ 0) := by
  refine ⟨?_, ?_, ?_, ?_, ?_⟩
  · exact C2_cell_exclusivity.1 sC3 1 .general 0 0 5 5 (by decide)
  · exact C2_cell_exclusivity.2.1 sC7 1 .cavalry 3 3 (by decide)
  · exact C2_cell_exclusivity.2.2.1 sC5 2 2 2 4 cav1 rfl (by decide)
  · exact C2_cell_exclusivity.2.2.2.1 sC1 1 3 4 3 3 liP1 genP2 rfl rfl rfl rfl
      (by decide) rfl
  · exact C2_cell_exclusivity.2.2.2.2 sC1 3 3 3 4 liP1 genP2 rfl rfl rfl

/-! C5.  The cavalry charge. -/

theorem checkForHealing_chargeDirection (p : Piece) (row : Int) :
    (P0.checkForHealing p row).chargeDirection = p.chargeDirection := by
  unfold P0.checkForHealing
  split_ifs <;> rfl

theorem checkForHealing_type (p : Piece) (row : Int) :
    (P0.checkForHealing p row).type = p.type := by
  unfold P0.checkForHealing
  split_ifs <;> rfl

theorem checkForHealing_player (p : Piece) (row : Int) :
    (P0.checkForHealing p row).player = p.player := by
  unfold P0.checkForHealing
  split_ifs <;> rfl

/-- C5: a Cavalry piece completing a 2-cell straight move records the unit
vector of that move as its charge direction; an attack on an adjacent enemy
in exactly the recorded direction deals 2 damage unless the target is Heavy
Infantry, in which case it deals 1; and every accepted end-turn clears the
charge direction of every Cavalry piece on the board. -/
theorem C5_cavalry_charge :
    (∀ (s : GameState) (fr fc tr tc d : Int) (piece : Piece),
      s.board fr fc = some piece → piece.type = .cavalry →
      ((tr = fr + 2 * d ∧ tc = fc) ∨ (tr = fr ∧ tc = fc + 2 * d)) →
      (d = 1 ∨ d = -1) →
      ∃ q, (P0.movePiece fr fc tr tc s).board tr tc = some q ∧
        q.chargeDirection = some (if tc = fc then (d, 0) else (0, d)) ∧
        q.type = piece.type ∧ q.player = piece.player ∧
        (P0.movePiece fr fc tr tc s).board fr fc = none) ∧
    (∀ (s : GameState) (aR aC tR tC dr dc : Int) (attacker target : Piece),
      s.gameEnded = false → s.board aR aC = some attacker →
      s.board tR tC = some target → attacker.type = .cavalry →
      attacker.chargeDirection = some (dr, dc) →
      tR - aR = dr → tC - aC = dc → mdist aR aC tR tC = 1 →
      P0.chargeDamage attacker target aR aC tR tC =
        (if target.type = .heavyInfantry then 1 else 2) ∧
      (P0.attackPiece aR aC tR tC s).board tR tC =
        (if target.health - (if target.type = .heavyInfantry then (1 : Int) else 2) ≤ 0 then none
         else some { target with health := target.health - (if target.type = .heavyInfantry then (1 : Int) else 2) })) ∧
    (∀ (s : GameState) (player : Nat) (r c : Int) (piece : Piece),
      s.currentPlayer = player →
      ¬ (s.gamePhase = .placement ∧ ¬ (s.piecesPlacedThisTurn = 4)) →
      0 ≤ r → r < 7 → 0 ≤ c → c < 6 →
      s.board r c = some piece → piece.type = .cavalry →
      (P0.handleEndTurn player s).board r c = some { piece with chargeDirection := none }) := by
  refine ⟨?_, ?_, ?_⟩
  · intro s fr fc tr tc d piece hp hcav hmove hd
    have hd2 : mdist fr fc tr tc = 2 := by
      unfold mdist
      rcases hmove with ⟨h1, h2⟩ | ⟨h1, h2⟩ <;> subst h1 <;> subst h2 <;>
        rcases hd with h | h <;> subst h <;> simp
    have hne2 : ¬ (tr = fr ∧ tc = fc) := by
      rcases hmove with ⟨h1, h2⟩ | ⟨h1, h2⟩ <;> rcases hd with h | h <;> subst h <;> omega
    have hdir : (P0.normalizeDir (tr - fr), P0.normalizeDir (tc - fc)) =
        (if tc = fc then ((d : Int), (0 : Int)) else ((0 : Int), (d : Int))) := by
      rcases hmove with ⟨h1, h2⟩ | ⟨h1, h2⟩ <;> subst h1 <;> subst h2 <;>
        rcases hd with h | h <;> subst h <;> simp [P0.normalizeDir]
    refine ⟨P0.checkForHealing
        { piece with chargeDirection := (some (P0.normalizeDir (tr - fr), P0.normalizeDir (tc - fc))) } tr,
      ?_, ?_, ?_, ?_, ?_⟩
    · unfold P0.movePiece
      simp only [hp, hcav, hd2]
      simp [setCell, hne2]
    · rw [checkForHealing_chargeDirection]
      simpa using hdir
    · rw [checkForHealing_type]
    · rw [checkForHealing_player]
    · unfold P0.movePiece
      simp only [hp, hcav, hd2]
      simp [setCell]
  · intro s aR aC tR tC dr dc attacker target h0 ha ht hcav hcd hdr hdc hdist
    have hdmg : P0.chargeDamage attacker target aR aC tR tC =
        (if target.type = .heavyInfantry then 1 else 2) := by
      unfold P0.chargeDamage
      rw [hcd]
      by_cases hhi : target.type = .heavyInfantry
      · simp [hhi]
      · simp [hhi, hcav, hdist, hdr, hdc]
    refine ⟨hdmg, ?_⟩
    unfold P0.attackPiece
    simp only [h0, ha, ht, Bool.false_eq_true, if_false, hdmg]
    by_cases hk : target.health - (if target.type = .heavyInfantry then (1 : Int) else 2) ≤ 0 <;>
      split_ifs <;> simp_all [setCell]
  · intro s player r c piece hcur hok hr0 hr7 hc0 hc6 hcell hcav
    unfold P0.handleEndTurn
    simp only [hcur, hok, not_true, if_false]
    split_ifs <;> simp [P0.clearCharges, hr0, hr7, hc0, hc6, hcell, hcav]

/-- C5 witness: the 2-cell move (2,2)→(2,4) of `sC5` records vector (0,1);
in `sC5b` the charged Cavalry's attack along (0,1) against a non-heavy
target computes damage 2 and removes the 2-health target; and end turn in
`sC5b` clears the recorded vector. -/
theorem C5_cavalry_charge_witness :
    (∃ q, (P0.movePiece 2 2 2 4 sC5).board 2 4 = some q ∧
      q.chargeDirection = some (if (4 : Int) = 2 then ((1 : Int), (0 : Int)) else (0, 1)) ∧
      q.type = cav1.type ∧ q.player = cav1.player ∧
      (P0.movePiece 2 2 2 4 sC5).board 2 2 = none) ∧
    (P0.chargeDamage cavC liP2 2 4 2 5 =
      (if liP2.type = .heavyInfantry then 1 else 2) ∧
     (P0.attackPiece 2 4 2 5 sC5b).board 2 5 =
      (if liP2.health - (if liP2.type = .heavyInfantry then (1 : Int) else 2) ≤ 0 then none
       else some { liP2 with health := liP2.health - (if liP2.type = .heavyInfantry then (1 : Int) else 2) })) ∧
    (P0.handleEndTurn 1 sC5b).board 2 4 = some { cavC with chargeDirection := none } := by
  refine ⟨?_, ?_, ?_⟩
  · exact C5_cavalry_charge.1 sC5 2 2 2 4 1 cav1 rfl rfl (Or.inr (by norm_num)) (Or.inl rfl)
  · exact C5_cavalry_charge.2.1 sC5b 2 4 2 5 0 1 cavC liP2 rfl rfl rfl rfl rfl
      (by decide) (by decide) (by decide)
  · exact C5_cavalry_charge.2.2 sC5b 1 2 4 cavC rfl (by decide) (by decide)
      (by decide) (by decide) (by decide) rfl rfl

/-! C4.  Archer attack legality. -/

theorem mdist_eq_zero_iff (a b c d : Int) : mdist a b c d = 0 ↔ (a = c ∧ b = d) := by
  unfold mdist
  omega

theorem hlos_iff (fr fc tr tc : Int) (b : Board) (hst : fr = tr ∨ fc = tc) :
    (P0.hasLineOfSight fr fc tr tc b = true ↔
      ∀ r c, cellBetween fr fc tr tc r c → b r c = none) := by
  unfold P0.hasLineOfSight
  by_cases h1 : fr = tr
  · rw [if_pos h1, List.all_eq_true]
    constructor
    · intro hall r c hbet
      rcases hbet with ⟨hr, hrow, hlt, hgt⟩ | ⟨hc, hcol, hlt, hgt⟩
      · subst hr
        have hmem : (c - min fc tc - 1).toNat ∈ List.range (max fc tc - min fc tc - 1).toNat := by
          rw [List.mem_range]
          omega
        have hx := hall _ hmem
        simp only [Option.isNone_iff_eq_none] at hx
        have he : min fc tc + 1 + ((c - min fc tc - 1).toNat : Int) = c := by omega
        rw [he] at hx
        exact hx
      · omega
    · intro hforall i hi
      rw [List.mem_range] at hi
      simp only [Option.isNone_iff_eq_none]
      exact hforall fr _ (Or.inl ⟨rfl, h1, by omega, by omega⟩)
  · have h2 : fc = tc := hst.resolve_left h1
    rw [if_neg h1, if_pos h2, List.all_eq_true]
    constructor
    · intro hall r c hbet
      rcases hbet with ⟨hr, hrow, hlt, hgt⟩ | ⟨hc, hcol, hlt, hgt⟩
      · exact absurd hrow h1
      · subst hc
        have hmem : (r - min fr tr - 1).toNat ∈ List.range (max fr tr - min fr tr - 1).toNat := by
          rw [List.mem_range]
          omega
        have hx := hall _ hmem
        simp only [Option.isNone_iff_eq_none] at hx
        have he : min fr tr + 1 + ((r - min fr tr - 1).toNat : Int) = r := by omega
        rw [he] at hx
        exact hx
    · intro hforall i hi
      rw [List.mem_range] at hi
      simp only [Option.isNone_iff_eq_none]
      exact hforall _ fc (Or.inr ⟨rfl, h2, by omega, by omega⟩)

/-- C4: for an archer and an enemy target on a distinct cell, `canAttack`
accepts exactly the claim's conditions — distance 1 always (ammo ignored);
distance above 1 iff ammo > 0, a shared row or column, distance at most 4
when limited range is enabled, and no occupied cell strictly between when
line of sight is enabled.  And when `canAttack` is false, the selectCell
intent leaves the board, both rosters, and the turn flags unchanged. -/
theorem C4_archer_attack :
    (∀ (s : GameState) (piece target : Piece) (fr fc tr tc : Int),
      piece.type = .archer → s.board tr tc = some target →
      target.player ≠ piece.player → ¬ (fr = tr ∧ fc = tc) →
      (P0.canAttack piece fr fc tr tc s = true ↔ archerAttackLegal piece fr fc tr tc s)) ∧
    (∀ (s : GameState) (player : Nat) (fr fc r c : Int) (piece tp : Piece),
      s.gamePhase = .battle → s.currentPlayer = player →
      s.selectedCell = some (fr, fc) → s.board fr fc = some piece →
      ¬ (fr = r ∧ fc = c) → s.board r c = some tp →
      P0.canAttack piece fr fc r c s = false →
      (P0.handleSelectCell player r c s).board = s.board ∧
      (P0.handleSelectCell player r c s).hasMoved = s.hasMoved ∧
      (P0.handleSelectCell player r c s).hasAttacked = s.hasAttacked ∧
      (P0.handleSelectCell player r c s).player1Pieces = s.player1Pieces ∧
      (P0.handleSelectCell player r c s).player2Pieces = s.player2Pieces) := by
  constructor
  · intro s piece target fr fc tr tc harcher ht hen hne
    have hen' : ¬ (target.player = piece.player) := hen
    have hcode : P0.canAttack piece fr fc tr tc s = true ↔
        (mdist fr fc tr tc = 1 ∨
         ((ammoPos piece.ammo = true ∧ (fr = tr ∨ fc = tc)) ∧
          ¬ (s.limitedRangeEnabled = true ∧ mdist fr fc tr tc > 4) ∧
          ¬ (s.lineOfSightEnabled = true ∧ P0.hasLineOfSight fr fc tr tc s.board = false))) := by
      unfold P0.canAttack
      simp only [ht, harcher]
      rw [if_neg hen']
      simp only [if_true]
      split_ifs <;> simp_all
    rw [hcode]
    unfold archerAttackLegal
    have hgt : mdist fr fc tr tc ≠ 1 → mdist fr fc tr tc > 1 := by
      intro h
      have h0 : mdist fr fc tr tc ≠ 0 := by
        rw [Ne, mdist_eq_zero_iff]
        exact hne
      omega
    constructor
    · rintro (h | ⟨⟨hammo, hstr⟩, hnlim, hnlos⟩)
      · exact Or.inl h
      · by_cases hd1 : mdist fr fc tr tc = 1
        · exact Or.inl hd1
        · refine Or.inr ⟨hgt hd1, hammo, hstr, ?_, ?_⟩
          · intro hlim
            by_contra hfar
            exact hnlim ⟨hlim, by omega⟩
          · intro hlos
            have hsight : P0.hasLineOfSight fr fc tr tc s.board = true := by
              by_contra hbad
              exact hnlos ⟨hlos, by simpa using hbad⟩
            exact (hlos_iff fr fc tr tc s.board hstr).mp hsight
    · rintro (h | ⟨hd, hammo, hstr, hlim, hclear⟩)
      · exact Or.inl h
      · refine Or.inr ⟨⟨hammo, hstr⟩, ?_, ?_⟩
        · rintro ⟨hl, hfar⟩
          have := hlim hl
          omega
        · rintro ⟨hl, hbad⟩
          have hsight : P0.hasLineOfSight fr fc tr tc s.board = true :=
            (hlos_iff fr fc tr tc s.board hstr).mpr (hclear hl)
          rw [hsight] at hbad
          cases hbad
  · intro s player fr fc r c piece tp hph hcur hsel hsp hne htgt hca
    have hc : ¬ (tp.player ≠ piece.player ∧ P0.canAttack piece fr fc r c s = true) := by
      rintro ⟨-, h2⟩
      rw [hca] at h2
      cases h2
    unfold P0.handleSelectCell
    simp only [hph, hcur, hsel, hsp, htgt, hne]
    simp [hc]

/-- C4 witness: in `sC4` the loaded archer's row attack on (0,5) satisfies
the equivalence, and in `sC4r` the out-of-ammo archer's rejected ranged
attack leaves board, rosters, and turn flags unchanged. -/
theorem C4_archer_attack_witness :
    (P0.canAttack archer1 0 0 0 5 sC4 = true ↔ archerAttackLegal archer1 0 0 0 5 sC4) ∧
    ((P0.handleSelectCell 1 0 5 sC4r).board = sC4r.board ∧
     (P0.handleSelectCell 1 0 5 sC4r).hasMoved = sC4r.hasMoved ∧
     (P0.handleSelectCell 1 0 5 sC4r).hasAttacked = sC4r.hasAttacked ∧
     (P0.handleSelectCell 1 0 5 sC4r).player1Pieces = sC4r.player1Pieces ∧
     (P0.handleSelectCell 1 0 5 sC4r).player2Pieces = sC4r.player2Pieces) := by
  constructor
  · exact C4_archer_attack.1 sC4 archer1 liP2 0 0 0 5 rfl rfl (by decide) (by decide)
  · exact C4_archer_attack.2 sC4r 1 0 0 0 5 { archer1 with ammo := some 0 } liP2
      rfl rfl rfl rfl (by decide) rfl (by decide)

/-! C6.  The Spartan cleave. -/

theorem cleaveOne_noKill_proj (attacker : Piece) (aR aC tR tC dr dc : Int)
    (st : GameState × Bool) (hflag : st.2 = false)
    (h : ¬ AE.cleaveKillsGeneral attacker tR tC (aR + dr) (aC + dc)
        (st.1.board (aR + dr) (aC + dc))) :
    (AE.cleaveOne attacker aR aC tR tC dr dc st).2 = false ∧
    (AE.cleaveOne attacker aR aC tR tC dr dc st).1.board =
      setCell st.1.board (aR + dr) (aC + dc)
        (AE.cleaveEffect attacker tR tC (aR + dr) (aC + dc) (st.1.board (aR + dr) (aC + dc))) ∧
    (AE.cleaveOne attacker aR aC tR tC dr dc st).1.gameEnded = st.1.gameEnded ∧
    (AE.cleaveOne attacker aR aC tR tC dr dc st).1.winner = st.1.winner := by
  have hst : st = (st.1, false) := by
    rw [← hflag]
  rw [hst, cleaveOne_noKill attacker aR aC tR tC dr dc st.1 h]
  exact ⟨rfl, rfl, rfl, rfl⟩

theorem cleaveOne_kill_proj (attacker : Piece) (aR aC tR tC dr dc : Int)
    (st : GameState × Bool) (hflag : st.2 = false)
    (h : AE.cleaveKillsGeneral attacker tR tC (aR + dr) (aC + dc)
        (st.1.board (aR + dr) (aC + dc))) :
    (AE.cleaveOne attacker aR aC tR tC dr dc st).2 = true ∧
    (AE.cleaveOne attacker aR aC tR tC dr dc st).1.board =
      setCell st.1.board (aR + dr) (aC + dc) none ∧
    (AE.cleaveOne attacker aR aC tR tC dr dc st).1.gameEnded = true ∧
    (AE.cleaveOne attacker aR aC tR tC dr dc st).1.winner = some attacker.player := by
  have hst : st = (st.1, false) := by
    rw [← hflag]
  rw [hst, cleaveOne_kill attacker aR aC tR tC dr dc st.1 h]
  exact ⟨rfl, rfl, rfl, rfl⟩

/-- C6 counterexample: in `sC6` the Spartan Heavy Infantry at (3,3) strikes
(3,4); the up-cleave kills the 1-health enemy General at (2,3) and the loop
returns early, so the enemy Light Infantry at (3,2) — orthogonally adjacent
to the attacker and not the primary target — receives no damage at all,
contradicting "every enemy piece ... receives exactly 1 additional damage". -/
theorem C6_counterexample :
    (AE.attackPiece 3 3 3 4 sC6).gameEnded = true ∧
    (AE.attackPiece 3 3 3 4 sC6).winner = some 1 ∧
    sC6.board 3 2 = some aeLI2b ∧
    aeLI2b.player = 2 ∧ spartanHI.player = 1 ∧ aeLI2b.health = 2 ∧
    (AE.attackPiece 3 3 3 4 sC6).board 3 2 = some aeLI2b ∧
    (AE.attackPiece 3 3 3 4 sC6).board 2 3 = none := by
  decide

/-- C6 (amended): the cleave iterates up, down, left, right in that order;
as long as no earlier direction kills a General, each visited adjacent cell
receives the per-cell cleave effect (1 damage to an on-board enemy other
than the primary target, with removal at health ≤ 0) and all other cells
are untouched; but when a cleaved General dies the loop stops — `gameEnded`
and `winner` are set and the remaining directions are skipped. -/
theorem C6_cleave_amended :
    (∀ (s : GameState) (aR aC tR tC : Int) (attacker : Piece),
      s.board aR aC = some attacker →
      ¬ AE.cleaveKillsGeneral attacker tR tC (aR - 1) aC (s.board (aR - 1) aC) →
      ¬ AE.cleaveKillsGeneral attacker tR tC (aR + 1) aC (s.board (aR + 1) aC) →
      ¬ AE.cleaveKillsGeneral attacker tR tC aR (aC - 1) (s.board aR (aC - 1)) →
      (AE.handleSpartanCleave aR aC tR tC s).board (aR - 1) aC =
        AE.cleaveEffect attacker tR tC (aR - 1) aC (s.board (aR - 1) aC) ∧
      (AE.handleSpartanCleave aR aC tR tC s).board (aR + 1) aC =
        AE.cleaveEffect attacker tR tC (aR + 1) aC (s.board (aR + 1) aC) ∧
      (AE.handleSpartanCleave aR aC tR tC s).board aR (aC - 1) =
        AE.cleaveEffect attacker tR tC aR (aC - 1) (s.board aR (aC - 1)) ∧
      (AE.handleSpartanCleave aR aC tR tC s).board aR (aC + 1) =
        AE.cleaveEffect attacker tR tC aR (aC + 1) (s.board aR (aC + 1)) ∧
      (∀ r c, ¬ (r = aR - 1 ∧ c = aC) → ¬ (r = aR + 1 ∧ c = aC) →
        ¬ (r = aR ∧ c = aC - 1) → ¬ (r = aR ∧ c = aC + 1) →
        (AE.handleSpartanCleave aR aC tR tC s).board r c = s.board r c)) ∧
    (∀ (s : GameState) (aR aC tR tC : Int) (attacker : Piece),
      s.board aR aC = some attacker →
      AE.cleaveKillsGeneral attacker tR tC (aR - 1) aC (s.board (aR - 1) aC) →
      (AE.handleSpartanCleave aR aC tR tC s).gameEnded = true ∧
      (AE.handleSpartanCleave aR aC tR tC s).winner = some attacker.player ∧
      (AE.handleSpartanCleave aR aC tR tC s).board (aR - 1) aC = none ∧
      (AE.handleSpartanCleave aR aC tR tC s).board (aR + 1) aC = s.board (aR + 1) aC ∧
      (AE.handleSpartanCleave aR aC tR tC s).board aR (aC - 1) = s.board aR (aC - 1) ∧
      (AE.handleSpartanCleave aR aC tR tC s).board aR (aC + 1) = s.board aR (aC + 1)) := by
  constructor
  · intro s aR aC tR tC attacker ha hU hD hL
    have e1 : aR + (-1 : Int) = aR - 1 := by ring
    have e2 : aC + (0 : Int) = aC := by ring
    have e3 : aR + (0 : Int) = aR := by ring
    have e4 : aC + (-1 : Int) = aC - 1 := by ring
    rw [handleSpartanCleave_eq aR aC tR tC s attacker ha]
    set T1 := AE.cleaveOne attacker aR aC tR tC (-1) 0 (s, false) with hT1
    set T2 := AE.cleaveOne attacker aR aC tR tC 1 0 T1 with hT2
    set T3 := AE.cleaveOne attacker aR aC tR tC 0 (-1) T2 with hT3
    set T4 := AE.cleaveOne attacker aR aC tR tC 0 1 T3 with hT4
    have h1 := cleaveOne_noKill attacker aR aC tR tC (-1) 0 s (by rw [e1, e2]; exact hU)
    rw [e1, e2] at h1
    have f1 : T1.2 = false := by
      rw [hT1, h1]
    have b1 : T1.1.board = setCell s.board (aR - 1) aC
        (AE.cleaveEffect attacker tR tC (aR - 1) aC (s.board (aR - 1) aC)) := by
      rw [hT1, h1]
    have hcell2 : T1.1.board (aR + 1) aC = s.board (aR + 1) aC := by
      rw [b1, setCell_ne]
      rintro ⟨h', -⟩
      omega
    obtain ⟨f2, b2, -, -⟩ := cleaveOne_noKill_proj attacker aR aC tR tC 1 0 T1 f1
      (by rw [e2, hcell2]; exact hD)
    rw [← hT2] at f2 b2
    rw [e2, hcell2, b1] at b2
    have hcell3 : T2.1.board aR (aC - 1) = s.board aR (aC - 1) := by
      rw [b2, setCell_ne, setCell_ne] <;> try rfl
      all_goals rintro ⟨h1', h2'⟩ <;> omega
    obtain ⟨f3, b3, -, -⟩ := cleaveOne_noKill_proj attacker aR aC tR tC 0 (-1) T2 f2
      (by rw [e3, e4, hcell3]; exact hL)
    rw [← hT3] at f3 b3
    rw [e3, e4, hcell3, b2] at b3
    have hcell4 : T3.1.board aR (aC + 1) = s.board aR (aC + 1) := by
      rw [b3, setCell_ne, setCell_ne, setCell_ne] <;> try rfl
      all_goals rintro ⟨h1', h2'⟩ <;> omega
    have b4 : T4.1.board = setCell (setCell (setCell (setCell s.board (aR - 1) aC
        (AE.cleaveEffect attacker tR tC (aR - 1) aC (s.board (aR - 1) aC))) (aR + 1) aC
        (AE.cleaveEffect attacker tR tC (aR + 1) aC (s.board (aR + 1) aC))) aR (aC - 1)
        (AE.cleaveEffect attacker tR tC aR (aC - 1) (s.board aR (aC - 1)))) aR (aC + 1)
        (AE.cleaveEffect attacker tR tC aR (aC + 1) (s.board aR (aC + 1))) := by
      by_cases hkill : AE.cleaveKillsGeneral attacker tR tC (aR + 0) (aC + 1)
          (T3.1.board (aR + 0) (aC + 1))
      · obtain ⟨-, b4', -, -⟩ := cleaveOne_kill_proj attacker aR aC tR tC 0 1 T3 f3 hkill
        rw [← hT4] at b4'
        rw [e3, b3] at b4'
        have heff : AE.cleaveEffect attacker tR tC aR (aC + 1) (s.board aR (aC + 1)) = none := by
          obtain ⟨hb, ct, hcell, hpl, hnp, hd, hgen⟩ := hkill
          rw [e3, hcell4] at hcell
          rw [e3] at hb hnp
          unfold AE.cleaveEffect
          rw [hcell]
          simp only [hb, if_true]
          simp [hpl, hnp, hd]
        rw [b4', heff]
      · obtain ⟨-, b4', -, -⟩ := cleaveOne_noKill_proj attacker aR aC tR tC 0 1 T3 f3 hkill
        rw [← hT4] at b4'
        rw [e3, hcell4, b3] at b4'
        exact b4'
    rw [b4]
    refine ⟨?_, ?_, ?_, ?_, ?_⟩
    · rw [setCell_ne, setCell_ne, setCell_ne, setCell_same] <;> try rfl
      all_goals rintro ⟨h1', h2'⟩ <;> omega
    · rw [setCell_ne, setCell_ne, setCell_same] <;> try rfl
      all_goals rintro ⟨h1', h2'⟩ <;> omega
    · rw [setCell_ne, setCell_same] <;> try rfl
      all_goals rintro ⟨h1', h2'⟩ <;> omega
    · rw [setCell_same]
    · intro r c hnU hnD hnL hnR
      rw [setCell_ne _ _ _ _ _ _ hnR, setCell_ne _ _ _ _ _ _ hnL,
          setCell_ne _ _ _ _ _ _ hnD, setCell_ne _ _ _ _ _ _ hnU]
  · intro s aR aC tR tC attacker ha hU
    have e1 : aR + (-1 : Int) = aR - 1 := by ring
    have e2 : aC + (0 : Int) = aC := by ring
    have hU' : AE.cleaveKillsGeneral attacker tR tC (aR + (-1)) (aC + 0)
        (s.board (aR + (-1)) (aC + 0)) := by
      rw [e1, e2]
      exact hU
    rw [handleSpartanCleave_eq aR aC tR tC s attacker ha,
        cleaveOne_kill attacker aR aC tR tC (-1) 0 s hU',
        cleaveOne_flagTrue _ _ _ _ _ _ _ _ rfl,
        cleaveOne_flagTrue _ _ _ _ _ _ _ _ rfl,
        cleaveOne_flagTrue _ _ _ _ _ _ _ _ rfl]
    refine ⟨rfl, rfl, ?_, ?_, ?_, ?_⟩
    · show setCell s.board (aR + (-1)) (aC + 0) none (aR - 1) aC = none
      rw [setCell, if_pos ⟨by ring, by ring⟩]
    · show setCell s.board (aR + (-1)) (aC + 0) none (aR + 1) aC = s.board (aR + 1) aC
      rw [setCell_ne]
      rintro ⟨h, -⟩
      omega
    · show setCell s.board (aR + (-1)) (aC + 0) none aR (aC - 1) = s.board aR (aC - 1)
      rw [setCell_ne]
      rintro ⟨h, -⟩
      omega
    · show setCell s.board (aR + (-1)) (aC + 0) none aR (aC + 1) = s.board aR (aC + 1)
      rw [setCell_ne]
      rintro ⟨h, -⟩
      omega

/-- C6 witness: in `sC6b` (no General in cleave range) each of the four
adjacent cells receives exactly the per-cell cleave effect and a far cell
(0,0) is untouched; in `sC6` the up-cleave kills the General, sets the
outcome, and leaves the right-adjacent cell untouched. -/
theorem C6_cleave_amended_witness :
    (AE.handleSpartanCleave 3 3 3 4 sC6b).board (3 - 1) 3 =
      AE.cleaveEffect spartanHI 3 4 (3 - 1) 3 (sC6b.board (3 - 1) 3) ∧
    (AE.handleSpartanCleave 3 3 3 4 sC6b).board (3 + 1) 3 =
      AE.cleaveEffect spartanHI 3 4 (3 + 1) 3 (sC6b.board (3 + 1) 3) ∧
    (AE.handleSpartanCleave 3 3 3 4 sC6b).board 3 (3 - 1) =
      AE.cleaveEffect spartanHI 3 4 3 (3 - 1) (sC6b.board 3 (3 - 1)) ∧
    (AE.handleSpartanCleave 3 3 3 4 sC6b).board 3 (3 + 1) =
      AE.cleaveEffect spartanHI 3 4 3 (3 + 1) (sC6b.board 3 (3 + 1)) ∧
    (AE.handleSpartanCleave 3 3 3 4 sC6b).board 0 0 = sC6b.board 0 0 ∧
    (AE.handleSpartanCleave 3 3 3 4 sC6).gameEnded = true ∧
    (AE.handleSpartanCleave 3 3 3 4 sC6).winner = some spartanHI.player ∧
    (AE.handleSpartanCleave 3 3 3 4 sC6).board (3 - 1) 3 = none ∧
    (AE.handleSpartanCleave 3 3 3 4 sC6).board 3 (3 + 1) = sC6.board 3 (3 + 1) := by
  have hA := C6_cleave_amended.1 sC6b 3 3 3 4 spartanHI rfl
    (by
      rintro ⟨-, ct, hcell, -⟩
      rw [show sC6b.board (3 - 1) 3 = none from rfl] at hcell
      exact Option.noConfusion hcell)
    (by
      rintro ⟨-, ct, hcell, -⟩
      rw [show sC6b.board (3 + 1) 3 = none from rfl] at hcell
      exact Option.noConfusion hcell)
    (by
      rintro ⟨-, ct, hcell, -, -, hd, -⟩
      rw [show sC6b.board 3 (3 - 1) = some aeLI2b from rfl] at hcell
      injection hcell with h
      subst h
      exact absurd hd (by decide))
  have hB := C6_cleave_amended.2 sC6 3 3 3 4 spartanHI rfl
    ⟨by decide, aeGen2, by decide, by decide, by decide, by decide, rfl⟩
  exact ⟨hA.1, hA.2.1, hA.2.2.1, hA.2.2.2.1,
    hA.2.2.2.2 0 0 (by decide) (by decide) (by decide) (by decide),
    hB.1, hB.2.1, hB.2.2.1, hB.2.2.2.2.2⟩

/-! C1 (continued).  The amended general-death claim, stated over the exact
kill condition and covering every damage source and every post-win intent. -/

theorem movePiece_clears_fills (s : GameState) (fr fc tr tc : Int) (piece : Piece)
    (hp : s.board fr fc = some piece) (hne : ¬ (fr = tr ∧ fc = tc)) :
    (P0.movePiece fr fc tr tc s).board fr fc = none ∧
    ((P0.movePiece fr fc tr tc s).board tr tc).isSome = true := by
  have hne2 : ¬ (tr = fr ∧ tc = fc) := fun h2 => hne ⟨h2.1.symm, h2.2.symm⟩
  unfold P0.movePiece
  simp only [hp]
  constructor
  · simp [setCell]
  · simp [setCell, hne2]

/-- C1 (amended): any damage that brings a General's health to 0 or below —
the hypothesis is the exact kill condition `health - chargeDamage ≤ 0`, so a
charge (damage 2) killing a 2-health General is covered non-vacuously — sets
`gameEnded := true` and `winner` to the attacking seat in that same step,
removes the General, and leaves the phase unchanged (it stays `battle`; the
code has no `ended` phase); a cleave killing a General in any of the four
directions does the same. Afterwards `attackPiece` is a no-op and placePiece
intents are rejected because the phase is still `battle`, but endTurn is
still accepted (it flips `currentPlayer`), a selectCell selection is still
accepted (it sets the cursor), and a selectCell move is still accepted
(it sets `hasMoved` and moves the piece). -/
theorem C1_general_death_amended :
    (∀ (s : GameState) (aR aC tR tC : Int) (attacker target : Piece),
      s.gameEnded = false → s.board aR aC = some attacker →
      s.board tR tC = some target → target.type = .general →
      target.health - P0.chargeDamage attacker target aR aC tR tC ≤ 0 →
      (P0.attackPiece aR aC tR tC s).gameEnded = true ∧
      (P0.attackPiece aR aC tR tC s).winner = some attacker.player ∧
      (P0.attackPiece aR aC tR tC s).gamePhase = s.gamePhase ∧
      (P0.attackPiece aR aC tR tC s).board tR tC = none) ∧
    (∀ (s : GameState) (a b c d : Int),
      s.gameEnded = true → P0.attackPiece a b c d s = s) ∧
    (∀ (s : GameState) (player : Nat) (pieceType : PieceType) (row col : Int),
      s.gamePhase = .battle → P0.handlePlacePiece player pieceType row col s = s) ∧
    (∀ (s : GameState) (aR aC tR tC : Int) (attacker : Piece),
      s.board aR aC = some attacker →
      (AE.cleaveKillsGeneral attacker tR tC (aR - 1) aC (s.board (aR - 1) aC) ∨
       AE.cleaveKillsGeneral attacker tR tC (aR + 1) aC (s.board (aR + 1) aC) ∨
       AE.cleaveKillsGeneral attacker tR tC aR (aC - 1) (s.board aR (aC - 1)) ∨
       AE.cleaveKillsGeneral attacker tR tC aR (aC + 1) (s.board aR (aC + 1))) →
      (AE.handleSpartanCleave aR aC tR tC s).gameEnded = true ∧
      (AE.handleSpartanCleave aR aC tR tC s).winner = some attacker.player) ∧
    (∀ (s : GameState) (player : Nat),
      s.gameEnded = true → s.gamePhase = .battle → s.currentPlayer = player →
      (P0.handleEndTurn player s).currentPlayer = (if s.currentPlayer = 1 then 2 else 1) ∧
      (P0.handleEndTurn player s).currentPlayer ≠ s.currentPlayer) ∧
    (∀ (s : GameState) (player : Nat) (r c : Int) (piece : Piece),
      s.gameEnded = true → s.gamePhase = .battle → s.currentPlayer = player →
      s.selectedCell = none → s.board r c = some piece → piece.player = player →
      P0.handleSelectCell player r c s = { s with selectedCell := some (r, c) }) ∧
    (∀ (s : GameState) (player : Nat) (r c sr sc : Int) (sp : Piece),
      s.gameEnded = true → s.gamePhase = .battle → s.currentPlayer = player →
      s.selectedCell = some (sr, sc) → s.board sr sc = some sp →
      ¬ (sr = r ∧ sc = c) → s.board r c = none →
      P0.canMove sp sr sc r c = true → s.hasMoved = false →
      (P0.handleSelectCell player r c s).hasMoved = true ∧
      (P0.handleSelectCell player r c s).board sr sc = none ∧
      ((P0.handleSelectCell player r c s).board r c).isSome = true) := by
  refine ⟨?_, ?_, ?_, ?_, ?_, ?_, ?_⟩
  · intro s aR aC tR tC attacker target h0 ha ht hg hkill
    unfold P0.attackPiece
    simp only [h0, ha, ht, Bool.false_eq_true, if_false]
    split_ifs <;> simp_all [setCell]
  · intro s a b c d h
    unfold P0.attackPiece
    simp [h]
  · intro s player pieceType row col hph
    have hng : ¬ (s.currentPlayer = player ∧ s.gamePhase = .placement) := by
      rintro ⟨-, h2⟩
      rw [hph] at h2
      cases h2
    unfold P0.handlePlacePiece
    simp [hng]
  · intro s aR aC tR tC attacker ha hkills
    have e1 : aR + (-1 : Int) = aR - 1 := by ring
    have e2 : aC + (0 : Int) = aC := by ring
    have e3 : aR + (0 : Int) = aR := by ring
    have e4 : aC + (-1 : Int) = aC - 1 := by ring
    rw [handleSpartanCleave_eq aR aC tR tC s attacker ha]
    set T1 := AE.cleaveOne attacker aR aC tR tC (-1) 0 (s, false) with hT1
    set T2 := AE.cleaveOne attacker aR aC tR tC 1 0 T1 with hT2
    set T3 := AE.cleaveOne attacker aR aC tR tC 0 (-1) T2 with hT3
    set T4 := AE.cleaveOne attacker aR aC tR tC 0 1 T3 with hT4
    by_cases kU : AE.cleaveKillsGeneral attacker tR tC (aR - 1) aC (s.board (aR - 1) aC)
    · have h1 := cleaveOne_kill attacker aR aC tR tC (-1) 0 s (by rw [e1, e2]; exact kU)
      have f1 : T1.2 = true := by rw [hT1, h1]
      have g1 : T1.1.gameEnded = true := by rw [hT1, h1]
      have w1 : T1.1.winner = some attacker.player := by rw [hT1, h1]
      have hT2e : T2 = T1 := by rw [hT2, cleaveOne_flagTrue _ _ _ _ _ _ _ _ f1]
      have hT3e : T3 = T1 := by rw [hT3, hT2e, cleaveOne_flagTrue _ _ _ _ _ _ _ _ f1]
      have hT4e : T4 = T1 := by rw [hT4, hT3e, cleaveOne_flagTrue _ _ _ _ _ _ _ _ f1]
      rw [hT4e]
      exact ⟨g1, w1⟩
    · have h1 := cleaveOne_noKill attacker aR aC tR tC (-1) 0 s (by rw [e1, e2]; exact kU)
      rw [e1, e2] at h1
      have f1 : T1.2 = false := by rw [hT1, h1]
      have b1 : T1.1.board = setCell s.board (aR - 1) aC
          (AE.cleaveEffect attacker tR tC (aR - 1) aC (s.board (aR - 1) aC)) := by
        rw [hT1, h1]
      have hcD : T1.1.board (aR + 1) aC = s.board (aR + 1) aC := by
        rw [b1, setCell_ne]
        rintro ⟨h', -⟩
        omega
      by_cases kD : AE.cleaveKillsGeneral attacker tR tC (aR + 1) aC (s.board (aR + 1) aC)
      · obtain ⟨f2, -, g2, w2⟩ := cleaveOne_kill_proj attacker aR aC tR tC 1 0 T1 f1
          (by rw [e2, hcD]; exact kD)
        rw [← hT2] at f2 g2 w2
        have hT3e : T3 = T2 := by rw [hT3, cleaveOne_flagTrue _ _ _ _ _ _ _ _ f2]
        have hT4e : T4 = T2 := by rw [hT4, hT3e, cleaveOne_flagTrue _ _ _ _ _ _ _ _ f2]
        rw [hT4e]
        exact ⟨g2, w2⟩
      · obtain ⟨f2, b2, -, -⟩ := cleaveOne_noKill_proj attacker aR aC tR tC 1 0 T1 f1
          (by rw [e2, hcD]; exact kD)
        rw [← hT2] at f2 b2
        rw [e2, hcD, b1] at b2
        have hcL : T2.1.board aR (aC - 1) = s.board aR (aC - 1) := by
          rw [b2, setCell_ne, setCell_ne] <;> try rfl
          all_goals rintro ⟨h1', h2'⟩ <;> omega
        by_cases kL : AE.cleaveKillsGeneral attacker tR tC aR (aC - 1) (s.board aR (aC - 1))
        · obtain ⟨f3, -, g3, w3⟩ := cleaveOne_kill_proj attacker aR aC tR tC 0 (-1) T2 f2
            (by rw [e3, e4, hcL]; exact kL)
          rw [← hT3] at f3 g3 w3
          have hT4e : T4 = T3 := by rw [hT4, cleaveOne_flagTrue _ _ _ _ _ _ _ _ f3]
          rw [hT4e]
          exact ⟨g3, w3⟩
        · obtain ⟨f3, b3, -, -⟩ := cleaveOne_noKill_proj attacker aR aC tR tC 0 (-1) T2 f2
            (by rw [e3, e4, hcL]; exact kL)
          rw [← hT3] at f3 b3
          rw [e3, e4, hcL, b2] at b3
          have kR : AE.cleaveKillsGeneral attacker tR tC aR (aC + 1) (s.board aR (aC + 1)) := by
            rcases hkills with h | h | h | h
            · exact absurd h kU
            · exact absurd h kD
            · exact absurd h kL
            · exact h
          have hcR : T3.1.board aR (aC + 1) = s.board aR (aC + 1) := by
            rw [b3, setCell_ne, setCell_ne, setCell_ne] <;> try rfl
            all_goals rintro ⟨h1', h2'⟩ <;> omega
          obtain ⟨-, -, g4, w4⟩ := cleaveOne_kill_proj attacker aR aC tR tC 0 1 T3 f3
            (by rw [e3, hcR]; exact kR)
          rw [← hT4] at g4 w4
          exact ⟨g4, w4⟩
  · intro s player hge hph hcur
    have hng : ¬ (s.gamePhase = .placement ∧ ¬ (s.piecesPlacedThisTurn = 4)) := by
      rintro ⟨h, -⟩
      rw [hph] at h
      cases h
    have heq : (P0.handleEndTurn player s).currentPlayer =
        (if s.currentPlayer = 1 then 2 else 1) := by
      unfold P0.handleEndTurn
      simp [hcur, hng, hph]
    refine ⟨heq, ?_⟩
    rw [heq]
    by_cases h1 : s.currentPlayer = 1 <;> simp [h1]
    omega
  · intro s player r c piece hge hph hcur hsel hb hp
    unfold P0.handleSelectCell
    simp [hph, hcur, hsel, hb, hp]
  · intro s player r c sr sc sp hge hph hcur hsel hsp hne htgt hcm hmv
    have hm := movePiece_clears_fills s sr sc r c sp hsp hne
    unfold P0.handleSelectCell
    simp only [hph, hcur, hsel, hsp, htgt, hne]
    simp [hcm, hmv, hm.1, hm.2]

/-- C1 witness: the direct kill in `sC1`; the charge kill of the 2-health
General in `sC1b` (damage 2, so `2 - 2 ≤ 0`); the post-end no-op attack; the
battle-phase placePiece rejection; the cleave kill from the third (left)
direction in `sC6c`; and in the post-win state `sWin`/`sWinSel`, the
accepted endTurn (player flips), the accepted selection (cursor set), and
the accepted move (piece moved, `hasMoved` set). -/
theorem C1_general_death_amended_witness :
    ((P0.attackPiece 3 3 3 4 sC1).gameEnded = true ∧
     (P0.attackPiece 3 3 3 4 sC1).winner = some liP1.player ∧
     (P0.attackPiece 3 3 3 4 sC1).gamePhase = sC1.gamePhase ∧
     (P0.attackPiece 3 3 3 4 sC1).board 3 4 = none) ∧
    ((P0.attackPiece 2 4 2 5 sC1b).gameEnded = true ∧
     (P0.attackPiece 2 4 2 5 sC1b).winner = some cavC.player ∧
     (P0.attackPiece 2 4 2 5 sC1b).gamePhase = sC1b.gamePhase ∧
     (P0.attackPiece 2 4 2 5 sC1b).board 2 5 = none) ∧
    P0.attackPiece 3 3 3 4 { sC1 with gameEnded := true } = { sC1 with gameEnded := true } ∧
    P0.handlePlacePiece 1 .general 0 0 sC7 = sC7 ∧
    ((AE.handleSpartanCleave 3 3 3 4 sC6c).gameEnded = true ∧
     (AE.handleSpartanCleave 3 3 3 4 sC6c).winner = some spartanHI.player) ∧
    ((P0.handleEndTurn 1 sWin).currentPlayer = (if sWin.currentPlayer = 1 then 2 else 1) ∧
     (P0.handleEndTurn 1 sWin).currentPlayer ≠ sWin.currentPlayer) ∧
    P0.handleSelectCell 1 3 3 sWin = { sWin with selectedCell := some (3, 3) } ∧
    ((P0.handleSelectCell 1 3 4 sWinSel).hasMoved = true ∧
     (P0.handleSelectCell 1 3 4 sWinSel).board 3 3 = none ∧
     ((P0.handleSelectCell 1 3 4 sWinSel).board 3 4).isSome = true) := by
  refine ⟨?_, ?_, ?_, ?_, ?_, ?_, ?_, ?_⟩
  · exact C1_general_death_amended.1 sC1 3 3 3 4 liP1 genP2 rfl rfl rfl rfl (by decide)
  · exact C1_general_death_amended.1 sC1b 2 4 2 5 cavC genC rfl rfl rfl rfl (by decide)
  · exact C1_general_death_amended.2.1 { sC1 with gameEnded := true } 3 3 3 4 rfl
  · exact C1_general_death_amended.2.2.1 sC7 1 .general 0 0 rfl
  · exact C1_general_death_amended.2.2.2.1 sC6c 3 3 3 4 spartanHI rfl
      (Or.inr (Or.inr (Or.inl ⟨by decide, aeGen2, by decide, by decide, by decide,
        by decide, rfl⟩)))
  · exact C1_general_death_amended.2.2.2.2.1 sWin 1 rfl rfl rfl
  · exact C1_general_death_amended.2.2.2.2.2.1 sWin 1 3 3 liP1 rfl rfl rfl rfl rfl rfl
  · exact C1_general_death_amended.2.2.2.2.2.2 sWinSel 1 3 4 3 3 liP1 rfl rfl rfl rfl rfl
      (by decide) rfl (by decide) rfl
